import Mathlib

/-!
# Flow classifier of the WinDivert device

A shallow embedding of `src/device/windivert/device.go`: the per-port
classification tables of `Device`, the classifiers `CheckIPv4` / `CheckIPv6`,
the OS connection-table matchers `CheckTCP4`, `CheckUDP4`, `CheckTCP6`,
`CheckUDP6`, the per-batch walk of `WriteTo`, and the methods `Close` and
`Write`.

Conventions of the embedding.

* A Go `[]byte` is a `Slice`: the bytes from the slice's first element up to
  its capacity (`mem`) together with its length (`len`).  Indexing `b[i]` is
  checked against `len`; a slice expression `b[lo:hi]` is checked against the
  capacity, as Go does.  An access that Go would refuse with a run-time panic
  yields `none`.
* `uint8` values are `Fin 256`; the `uint32` / `int` arithmetic of the source
  never overflows and is carried out in `Nat`.
* The four `[65536]uint8` tables are functions `Nat → Nat`; every index the
  code computes is below `65536` (theorem `bePort_lt`).
* `time.AfterFunc(time.Minute, fn)` does not run `fn`; it is recorded as a
  `Timer` in the outcome of the call, and `Timer.fire` is the body of `fn`.
* A `select` is a function of the branch taken, `none` when that branch is not
  ready; `Close` runs to completion as one step.
* The filters and the OS tables live outside this file of the source
  (`common.IPFilter`, `common.AppFilter`, `common.GetTCPTable`, ...): they are
  the fields of `Env`.
-/

namespace windivert

/-! ## Bytes and slices -/

abbrev Byte := Fin 256

/-- A Go byte slice: `mem` holds the bytes from the first element of the slice
up to its capacity, `len` is the length of the slice. -/
structure Slice where
  mem : List Byte
  len : Nat

/-- The index expression `b[i]`: defined when `i < len(b)`. -/
def Slice.idx (b : Slice) (i : Nat) : Option Byte :=
  if i < b.len then b.mem[i]? else none

/-- The slice expression `b[lo:hi]`: defined when `lo ≤ hi ≤ cap(b)`. -/
def Slice.sub (b : Slice) (lo hi : Nat) : Option (List Byte) :=
  if lo ≤ hi ∧ hi ≤ b.mem.length then some ((b.mem.drop lo).take (hi - lo)) else none

/-- The read `*(*T)(unsafe.Pointer(&b[i]))` of an `n`-byte object: `&b[i]` is
bounds-checked (`i < len(b)`), after which `n` bytes of memory are read. -/
def Slice.raw (b : Slice) (i n : Nat) : Option (List Byte) :=
  if i < b.len ∧ i + n ≤ b.mem.length then some ((b.mem.drop i).take n) else none

/-- The byte at position `i` of the memory of `b` (`0` past its end). -/
def Slice.byte (b : Slice) (i : Nat) : Byte := b.mem.getD i 0

/-- A `uint32` read from four bytes in host (little-endian) order. -/
def le32 (bs : List Byte) : Nat :=
  (bs.getD 0 0).val ||| ((bs.getD 1 0).val <<< 8) ||| ((bs.getD 2 0).val <<< 16)
    ||| ((bs.getD 3 0).val <<< 24)

/-- A value of type `[4]uint32`. -/
structure U32x4 where
  w0 : Nat
  w1 : Nat
  w2 : Nat
  w3 : Nat
  deriving DecidableEq, Repr

/-- A `[4]uint32` read from sixteen bytes in host order. -/
def le32x4 (bs : List Byte) : U32x4 :=
  ⟨le32 bs, le32 (bs.drop 4), le32 (bs.drop 8), le32 (bs.drop 12)⟩

/-! ## Constants -/

def ProtocolTCP : Nat := 6
def ProtocolUDP : Nat := 17

def FIN : Nat := 1 <<< 0
def SYN : Nat := 1 <<< 1

/-- The header lengths `ipv4.HeaderLen` and `ipv6.HeaderLen`. -/
def ipv4HeaderLen : Nat := 20
def ipv6HeaderLen : Nat := 40

/-- The values held by a table slot. -/
def UNKNOWN : Nat := 0
def ALLOW : Nat := 1
def DIVERT : Nat := 2

/-- The duration `time.Minute`, in seconds. -/
def Minute : Nat := 60

/-! ## Device state and environment -/

/-- The four classification tables of `Device`. -/
structure Device where
  TCP : Nat → Nat
  UDP : Nat → Nat
  TCP6 : Nat → Nat
  UDP6 : Nat → Nat

/-- The assignment `t[p] = v`. -/
def setSlot (t : Nat → Nat) (p v : Nat) : Nat → Nat :=
  fun q => if q = p then v else t q

/-- A row of the IPv4 TCP / UDP table: the fields the device reads. -/
structure Row4 where
  LocalAddr : Nat
  LocalPort : Nat
  OwningPid : Nat
  deriving DecidableEq, Repr

/-- A row of the IPv6 TCP / UDP table; `LocalAddr` is a `[4]uint32`. -/
structure Row6 where
  LocalAddr : U32x4
  LocalPort : Nat
  OwningPid : Nat
  deriving DecidableEq, Repr

/-- What a classify call consults outside the tables: the two filters and the
OS-table snapshots (`none` when the snapshot call returns an error). -/
structure Env where
  ipLookup : List Byte → Bool
  appLookup : Nat → Bool
  tcpTable : Option (List Row4)
  udpTable : Option (List Row4)
  tcp6Table : Option (List Row6)
  udp6Table : Option (List Row6)

/-- The table a timer callback writes to. -/
inductive Table where
  | UDP
  | UDP6
  deriving DecidableEq, Repr

/-- A call `time.AfterFunc(delay, fn)` where `fn` is `d.UDP[p] = 0` or
`d.UDP6[p] = 0`. -/
structure Timer where
  delay : Nat
  table : Table
  port : Nat
  deriving DecidableEq, Repr

/-- The body of the timer callback `fn`. -/
def Timer.fire (t : Timer) (d : Device) : Device :=
  match t.table with
  | Table.UDP => { d with UDP := setSlot d.UDP t.port 0 }
  | Table.UDP6 => { d with UDP6 := setSlot d.UDP6 t.port 0 }

/-- The result of a classify call: the verdict, the tables after the call and
the timers started by it. -/
structure Outcome where
  verdict : Bool
  dev : Device
  timers : List Timer

/-! ## OS-table matchers -/

/-- The loop of `CheckTCP4` over the snapshot. -/
def scanTCP4 (env : Env) (b : Slice) (p : Nat) : List Row4 → Option Bool
  | [] => some false
  | r :: rs =>
    if r.LocalPort = p then
      match b.raw 12 4 with
      | none => none
      | some a =>
        if le32 a = r.LocalAddr then some (env.appLookup r.OwningPid)
        else scanTCP4 env b p rs
    else scanTCP4 env b p rs

def CheckTCP4 (env : Env) (b : Slice) : Option Bool :=
  match env.tcpTable with
  | none => some false
  | some rs =>
    match b.idx ipv4HeaderLen, b.idx (ipv4HeaderLen + 1) with
    | some b0, some b1 => scanTCP4 env b (b0.val ||| (b1.val <<< 8)) rs
    | _, _ => none

/-- The loop of `CheckUDP4` over the snapshot. -/
def scanUDP4 (env : Env) (b : Slice) (p : Nat) : List Row4 → Option Bool
  | [] => some false
  | r :: rs =>
    if r.LocalPort = p then
      if 0 = r.LocalAddr then some (env.appLookup r.OwningPid)
      else
        match b.raw 12 4 with
        | none => none
        | some a =>
          if le32 a = r.LocalAddr then some (env.appLookup r.OwningPid)
          else scanUDP4 env b p rs
    else scanUDP4 env b p rs

def CheckUDP4 (env : Env) (b : Slice) : Option Bool :=
  match env.udpTable with
  | none => some false
  | some rs =>
    match b.idx ipv4HeaderLen, b.idx (ipv4HeaderLen + 1) with
    | some b0, some b1 => scanUDP4 env b (b0.val ||| (b1.val <<< 8)) rs
    | _, _ => none

/-- The comparison `a[0] == x[0] && a[1] == x[1] && a[2] == x[2] && a[3] == x[3]`
of two `[4]uint32`. -/
def eq4 (a x : U32x4) : Bool :=
  a.w0 == x.w0 && a.w1 == x.w1 && a.w2 == x.w2 && a.w3 == x.w3

/-- The test `0 == x[0] && 0 == x[1] && 0 == x[2] && 0 == x[3]`. -/
def zero4 (x : U32x4) : Bool :=
  0 == x.w0 && 0 == x.w1 && 0 == x.w2 && 0 == x.w3

/-- The loop of `CheckTCP6` over the snapshot; `a` is the `[4]uint32` read
before the loop. -/
def scanTCP6 (env : Env) (a : U32x4) (p : Nat) : List Row6 → Bool
  | [] => false
  | r :: rs =>
    if r.LocalPort = p then
      if eq4 a r.LocalAddr then env.appLookup r.OwningPid
      else scanTCP6 env a p rs
    else scanTCP6 env a p rs

def CheckTCP6 (env : Env) (b : Slice) : Option Bool :=
  match env.tcp6Table with
  | none => some false
  | some rs =>
    match b.idx ipv6HeaderLen, b.idx (ipv6HeaderLen + 1) with
    | some b0, some b1 =>
      match b.raw 8 16 with
      | none => none
      | some a => some (scanTCP6 env (le32x4 a) (b0.val ||| (b1.val <<< 8)) rs)
    | _, _ => none

/-- The loop of `CheckUDP6` over the snapshot. -/
def scanUDP6 (env : Env) (a : U32x4) (p : Nat) : List Row6 → Bool
  | [] => false
  | r :: rs =>
    if r.LocalPort = p then
      if zero4 r.LocalAddr || eq4 a r.LocalAddr then env.appLookup r.OwningPid
      else scanUDP6 env a p rs
    else scanUDP6 env a p rs

def CheckUDP6 (env : Env) (b : Slice) : Option Bool :=
  match env.udp6Table with
  | none => some false
  | some rs =>
    match b.idx ipv6HeaderLen, b.idx (ipv6HeaderLen + 1) with
    | some b0, some b1 =>
      match b.raw 0 16 with
      | none => none
      | some a => some (scanUDP6 env (le32x4 a) (b0.val ||| (b1.val <<< 8)) rs)
    | _, _ => none

/-! ## The classifiers -/

def CheckIPv4 (env : Env) (d : Device) (b : Slice) : Option Outcome := do
  let proto ← b.idx 9
  if proto.val = ProtocolTCP then
    let hi ← b.idx ipv4HeaderLen
    let lo ← b.idx (ipv4HeaderLen + 1)
    let p := (hi.val <<< 8) ||| lo.val
    match d.TCP p with
    | 0 =>
      let fl ← b.idx (ipv4HeaderLen + 13)
      if fl.val &&& SYN ≠ SYN then
        pure ⟨false, { d with TCP := setSlot d.TCP p 1 }, []⟩
      else
        let ip ← b.sub 16 20
        if env.ipLookup ip then
          pure ⟨true, { d with TCP := setSlot d.TCP p 2 }, []⟩
        else
          let m ← CheckTCP4 env b
          if m then
            pure ⟨true, { d with TCP := setSlot d.TCP p 2 }, []⟩
          else
            pure ⟨false, { d with TCP := setSlot d.TCP p 1 }, []⟩
    | 1 =>
      let fl ← b.idx (ipv4HeaderLen + 13)
      if fl.val &&& FIN = FIN then
        pure ⟨false, { d with TCP := setSlot d.TCP p 0 }, []⟩
      else
        pure ⟨false, d, []⟩
    | 2 =>
      let fl ← b.idx (ipv4HeaderLen + 13)
      if fl.val &&& FIN = FIN then
        pure ⟨true, { d with TCP := setSlot d.TCP p 0 }, []⟩
      else
        pure ⟨true, d, []⟩
    | _ => pure ⟨false, d, []⟩
  else if proto.val = ProtocolUDP then
    let hi ← b.idx ipv4HeaderLen
    let lo ← b.idx (ipv4HeaderLen + 1)
    let p := (hi.val <<< 8) ||| lo.val
    match d.UDP p with
    | 0 =>
      let fn : Timer := ⟨Minute, Table.UDP, p⟩
      let ip ← b.sub 16 20
      if env.ipLookup ip then
        pure ⟨true, { d with UDP := setSlot d.UDP p 2 }, [fn]⟩
      else
        let m ← CheckUDP4 env b
        if m then
          pure ⟨true, { d with UDP := setSlot d.UDP p 2 }, [fn]⟩
        else
          let dhi ← b.idx (ipv4HeaderLen + 2)
          let dlo ← b.idx (ipv4HeaderLen + 3)
          if ((dhi.val <<< 8) ||| dlo.val) = 53 then
            pure ⟨true, d, []⟩
          else
            pure ⟨false, { d with UDP := setSlot d.UDP p 1 }, [fn]⟩
    | 1 => pure ⟨false, d, []⟩
    | 2 => pure ⟨true, d, []⟩
    | _ => pure ⟨false, d, []⟩
  else
    let ip ← b.sub 16 20
    pure ⟨env.ipLookup ip, d, []⟩

def CheckIPv6 (env : Env) (d : Device) (b : Slice) : Option Outcome := do
  let proto ← b.idx 6
  if proto.val = ProtocolTCP then
    let hi ← b.idx ipv6HeaderLen
    let lo ← b.idx (ipv6HeaderLen + 1)
    let p := (hi.val <<< 8) ||| lo.val
    match d.TCP6 p with
    | 0 =>
      let fl ← b.idx (ipv6HeaderLen + 13)
      if fl.val &&& SYN ≠ SYN then
        pure ⟨false, { d with TCP6 := setSlot d.TCP6 p 1 }, []⟩
      else
        let ip ← b.sub 24 40
        if env.ipLookup ip then
          pure ⟨true, { d with TCP6 := setSlot d.TCP6 p 2 }, []⟩
        else
          let m ← CheckTCP6 env b
          if m then
            pure ⟨true, { d with TCP6 := setSlot d.TCP6 p 2 }, []⟩
          else
            pure ⟨false, { d with TCP6 := setSlot d.TCP6 p 1 }, []⟩
    | 1 =>
      let fl ← b.idx (ipv6HeaderLen + 13)
      if fl.val &&& FIN = FIN then
        pure ⟨false, { d with TCP6 := setSlot d.TCP6 p 0 }, []⟩
      else
        pure ⟨false, d, []⟩
    | 2 =>
      let fl ← b.idx (ipv6HeaderLen + 13)
      if fl.val &&& FIN = FIN then
        pure ⟨true, { d with TCP6 := setSlot d.TCP6 p 0 }, []⟩
      else
        pure ⟨true, d, []⟩
    | _ => pure ⟨false, d, []⟩
  else if proto.val = ProtocolUDP then
    let hi ← b.idx ipv6HeaderLen
    let lo ← b.idx (ipv6HeaderLen + 1)
    let p := (hi.val <<< 8) ||| lo.val
    match d.UDP6 p with
    | 0 =>
      let fn : Timer := ⟨Minute, Table.UDP6, p⟩
      let ip ← b.sub 24 40
      if env.ipLookup ip then
        pure ⟨true, { d with UDP6 := setSlot d.UDP6 p 2 }, [fn]⟩
      else
        let m ← CheckUDP6 env b
        if m then
          pure ⟨true, { d with UDP6 := setSlot d.UDP6 p 2 }, [fn]⟩
        else
          let dhi ← b.idx (ipv6HeaderLen + 2)
          let dlo ← b.idx (ipv6HeaderLen + 3)
          if ((dhi.val <<< 8) ||| dlo.val) = 53 then
            pure ⟨true, d, []⟩
          else
            pure ⟨false, { d with UDP6 := setSlot d.UDP6 p 1 }, [fn]⟩
    | 1 => pure ⟨false, d, []⟩
    | 2 => pure ⟨true, d, []⟩
    | _ => pure ⟨false, d, []⟩
  else
    let ip ← b.sub 24 40
    pure ⟨env.ipLookup ip, d, []⟩

/-! ## The per-batch walk of `WriteTo` -/

/-- Modelled from the spec: the type `divert.Address` is declared outside this
repository's sources; section 6 of the specification gives its record layout
`{ family, flags, interface_index, sub_interface_index, direction }`.  The
device only ever touches `Flags`. -/
structure Address where
  family : Nat
  Flags : Nat
  interface_index : Nat
  sub_interface_index : Nat
  direction : Nat
  deriving DecidableEq, Repr

/-- The constant `f` of `WriteTo`. -/
def f : Nat := (0x01 <<< 7) ||| (0x01 <<< 6) ||| (0x01 <<< 5) ||| (0x01 <<< 3)

/-- The versions `ipv4.Version` and `ipv6.Version`. -/
def ipv4Version : Nat := 4
def ipv6Version : Nat := 6

/-- The errors `WriteTo` returns from inside the walk. -/
inductive WalkError where
  | invalidIPVersion
  | writeInWriteTo
  deriving DecidableEq, Repr

/-- What surrounds one batch: the filters and OS tables in force when packet
`i` is classified, whether the sink accepts the write of packet `i`, and
whether `d.active` is closed when it is consulted. -/
structure World where
  env : Nat → Env
  wOk : Nat → List Byte → Bool
  closed : Bool

/-- The state the walk of one batch works on: the buffer `b` and the address
array `a` (whole, up to their capacity), the tables, the arguments of the
calls `w.Write` made so far (`w`, the failed one included) and the timers
started so far, in order.  `calls` records, per classify call made, the offset
in `b` of the packet and the verdict. -/
structure Batch where
  b : List Byte
  a : List Address
  dev : Device
  w : List (List Byte)
  timers : List Timer
  calls : List (Nat × Bool)

/-- How the walk of one batch ends: with a run-time panic, by returning from
`WriteTo` with `err` (`none` for a nil error), or by reaching `SendEx`. -/
inductive WalkResult where
  | panic (st : Batch)
  | returned (err : Option WalkError) (st : Batch)
  | sendEx (st : Batch)

/-- The assignment `a[i].Flags |= f`. -/
def orFlags (a : List Address) (i : Nat) : List Address :=
  a.modify (fun x => { x with Flags := x.Flags ||| f }) i

/-- The `for i := uint(0); i < nx; i++` loop of `WriteTo` with `k` iterations
left; `bb` is `b[off:nr]`.  The loop runs alone on the tables: no timer
callback fires between two of its classify calls. -/
def walk (W : World) (nr : Nat) : Nat → Nat → Nat → Batch → WalkResult
  | 0, _, _, st => WalkResult.sendEx st
  | k + 1, i, off, st =>
    let bb : Slice := ⟨st.b.drop off, nr - off⟩
    match bb.idx 0 with
    | none => WalkResult.panic st
    | some v =>
      if v.val >>> 4 = ipv4Version then
        match bb.idx 2, bb.idx 3 with
        | some x, some y =>
          let l := (x.val <<< 8) ||| y.val
          match CheckIPv4 (W.env i) st.dev bb with
          | none => WalkResult.panic st
          | some o =>
            let st1 : Batch := { st with dev := o.dev, timers := st.timers ++ o.timers,
                                         calls := st.calls ++ [(off, o.verdict)] }
            if o.verdict then
              match bb.sub 0 l with
              | none => WalkResult.panic st1
              | some data =>
                let st2 : Batch := { st1 with w := st1.w ++ [data] }
                if W.wOk i data then
                  if i < st2.a.length then
                    let st3 : Batch := { st2 with a := orFlags st2.a i }
                    if 8 < bb.len then
                      let st4 : Batch := { st3 with b := st3.b.set (off + 8) 0 }
                      if l ≤ bb.len then walk W nr k (i + 1) (off + l) st4
                      else WalkResult.panic st4
                    else WalkResult.panic st3
                  else WalkResult.panic st2
                else
                  WalkResult.returned
                    (if W.closed then none else some WalkError.writeInWriteTo) st2
            else
              if l ≤ bb.len then walk W nr k (i + 1) (off + l) st1
              else WalkResult.panic st1
        | _, _ => WalkResult.panic st
      else if v.val >>> 4 = ipv6Version then
        match bb.idx 4, bb.idx 5 with
        | some x, some y =>
          let l := ((x.val <<< 8) ||| y.val) + ipv6HeaderLen
          match CheckIPv6 (W.env i) st.dev bb with
          | none => WalkResult.panic st
          | some o =>
            let st1 : Batch := { st with dev := o.dev, timers := st.timers ++ o.timers,
                                         calls := st.calls ++ [(off, o.verdict)] }
            if o.verdict then
              match bb.sub 0 l with
              | none => WalkResult.panic st1
              | some data =>
                let st2 : Batch := { st1 with w := st1.w ++ [data] }
                if W.wOk i data then
                  if i < st2.a.length then
                    let st3 : Batch := { st2 with a := orFlags st2.a i }
                    if 7 < bb.len then
                      let st4 : Batch := { st3 with b := st3.b.set (off + 7) 0 }
                      if l ≤ bb.len then walk W nr k (i + 1) (off + l) st4
                      else WalkResult.panic st4
                    else WalkResult.panic st3
                  else WalkResult.panic st2
                else
                  WalkResult.returned
                    (if W.closed then none else some WalkError.writeInWriteTo) st2
            else
              if l ≤ bb.len then walk W nr k (i + 1) (off + l) st1
              else WalkResult.panic st1
        | _, _ => WalkResult.panic st
      else
        WalkResult.returned (some WalkError.invalidIPVersion) st

/-- What one iteration of the outer loop of `WriteTo` does with a batch that
`RecvEx` delivered without error: nothing (`continue`), a panic, a return, or
the call `SendEx(b[:nr], a[:nx])` with these two arguments. -/
inductive BatchResult where
  | skipped
  | panic (st : Batch)
  | returned (err : Option WalkError) (st : Batch)
  | sendEx (buf : List Byte) (addrs : List Address) (st : Batch)

/-- One iteration of the outer loop of `WriteTo` after a successful
`RecvEx(b, a)` that reported `nr` bytes and `nx` packets. -/
def WriteToBatch (W : World) (d : Device) (b : List Byte) (a : List Address) (nr nx : Nat) :
    BatchResult :=
  if nr < 1 ∨ nx < 1 then BatchResult.skipped
  else if nr ≤ b.length then
    match walk W nr nx 0 0 ⟨b, a, d, [], [], []⟩ with
    | WalkResult.panic st => BatchResult.panic st
    | WalkResult.returned err st => BatchResult.returned err st
    | WalkResult.sendEx st =>
      if nx ≤ st.a.length then BatchResult.sendEx (st.b.take nr) (st.a.take nx) st
      else BatchResult.panic st
  else BatchResult.panic ⟨b, a, d, [], [], []⟩

/-! ## The walk, one iteration at a time -/

/-- How one iteration of the loop of `WriteTo` ends: the loop goes on with
`bb = b[off:nr]` in state `st`, or `WriteTo` is left with the result `r`. -/
inductive StepResult where
  | next (off : Nat) (st : Batch)
  | stop (r : WalkResult)

/-- The body of the `for i := uint(0); i < nx; i++` loop of `WriteTo`, for
packet index `i` with `bb = b[off:nr]`. -/
def walkStep (W : World) (nr i off : Nat) (st : Batch) : StepResult :=
  let bb : Slice := ⟨st.b.drop off, nr - off⟩
  match bb.idx 0 with
  | none => StepResult.stop (WalkResult.panic st)
  | some v =>
    if v.val >>> 4 = ipv4Version then
      match bb.idx 2, bb.idx 3 with
      | some x, some y =>
        let l := (x.val <<< 8) ||| y.val
        match CheckIPv4 (W.env i) st.dev bb with
        | none => StepResult.stop (WalkResult.panic st)
        | some o =>
          let st1 : Batch := { st with dev := o.dev, timers := st.timers ++ o.timers,
                                       calls := st.calls ++ [(off, o.verdict)] }
          if o.verdict then
            match bb.sub 0 l with
            | none => StepResult.stop (WalkResult.panic st1)
            | some data =>
              let st2 : Batch := { st1 with w := st1.w ++ [data] }
              if W.wOk i data then
                if i < st2.a.length then
                  let st3 : Batch := { st2 with a := orFlags st2.a i }
                  if 8 < bb.len then
                    let st4 : Batch := { st3 with b := st3.b.set (off + 8) 0 }
                    if l ≤ bb.len then StepResult.next (off + l) st4
                    else StepResult.stop (WalkResult.panic st4)
                  else StepResult.stop (WalkResult.panic st3)
                else StepResult.stop (WalkResult.panic st2)
              else
                StepResult.stop (WalkResult.returned
                  (if W.closed then none else some WalkError.writeInWriteTo) st2)
          else
            if l ≤ bb.len then StepResult.next (off + l) st1
            else StepResult.stop (WalkResult.panic st1)
      | _, _ => StepResult.stop (WalkResult.panic st)
    else if v.val >>> 4 = ipv6Version then
      match bb.idx 4, bb.idx 5 with
      | some x, some y =>
        let l := ((x.val <<< 8) ||| y.val) + ipv6HeaderLen
        match CheckIPv6 (W.env i) st.dev bb with
        | none => StepResult.stop (WalkResult.panic st)
        | some o =>
          let st1 : Batch := { st with dev := o.dev, timers := st.timers ++ o.timers,
                                       calls := st.calls ++ [(off, o.verdict)] }
          if o.verdict then
            match bb.sub 0 l with
            | none => StepResult.stop (WalkResult.panic st1)
            | some data =>
              let st2 : Batch := { st1 with w := st1.w ++ [data] }
              if W.wOk i data then
                if i < st2.a.length then
                  let st3 : Batch := { st2 with a := orFlags st2.a i }
                  if 7 < bb.len then
                    let st4 : Batch := { st3 with b := st3.b.set (off + 7) 0 }
                    if l ≤ bb.len then StepResult.next (off + l) st4
                    else StepResult.stop (WalkResult.panic st4)
                  else StepResult.stop (WalkResult.panic st3)
                else StepResult.stop (WalkResult.panic st2)
              else
                StepResult.stop (WalkResult.returned
                  (if W.closed then none else some WalkError.writeInWriteTo) st2)
          else
            if l ≤ bb.len then StepResult.next (off + l) st1
            else StepResult.stop (WalkResult.panic st1)
      | _, _ => StepResult.stop (WalkResult.panic st)
    else
      StepResult.stop (WalkResult.returned (some WalkError.invalidIPVersion) st)

/-- The loop position after `j` completed iterations that started at packet
index `i`, offset `off` and state `st`: the offset and the state the next
iteration starts with; `none` when the loop was left before. -/
def reach (W : World) (nr : Nat) : Nat → Nat → Nat → Batch → Option (Nat × Batch)
  | 0, _, off, st => some (off, st)
  | j + 1, i, off, st =>
    match walkStep W nr i off st with
    | StepResult.next off1 st1 => reach W nr j (i + 1) off1 st1
    | StepResult.stop _ => none

/-! ## Reading a packet -/

/-- The 16-bit port at offset `off`, read big-endian: `high<<8 | low`. -/
def bePort (b : Slice) (off : Nat) : Nat :=
  ((b.byte off).val <<< 8) ||| (b.byte (off + 1)).val

/-- The 16-bit port at offset `off`, read in host order: `first | second<<8`. -/
def hostPort (b : Slice) (off : Nat) : Nat :=
  (b.byte off).val ||| ((b.byte (off + 1)).val <<< 8)

/-- The bytes `i .. i+n-1` of the packet. -/
def Slice.bytes (b : Slice) (i n : Nat) : List Byte := (b.mem.drop i).take n

/-- Whether the TCP flag byte at `off + 13` has all the bits of `flag`. -/
def hasFlag (b : Slice) (off flag : Nat) : Bool :=
  (b.byte (off + 13)).val &&& flag == flag

/-! ## The state machines as the specification words them -/

/-- The TCP state machine of the specification: from the slot and the facts
about the packet to the verdict and the next slot. -/
def tcpMachineSpec (slot : Nat) (syn fin ipMatch appMatch : Bool) : Bool × Nat :=
  if slot = UNKNOWN then
    if !syn then (false, ALLOW)
    else if ipMatch then (true, DIVERT)
    else if appMatch then (true, DIVERT)
    else (false, ALLOW)
  else if slot = ALLOW then
    (false, if fin then UNKNOWN else ALLOW)
  else
    (true, if fin then UNKNOWN else DIVERT)

/-- The UDP state machine of the specification: from the slot and the facts
about the packet to the verdict, the next slot and whether a reset of the slot
is scheduled. -/
def udpMachineSpec (slot : Nat) (ipMatch appMatch dns : Bool) : Bool × Nat × Bool :=
  if slot = UNKNOWN then
    if ipMatch then (true, DIVERT, true)
    else if appMatch then (true, DIVERT, true)
    else if dns then (true, UNKNOWN, false)
    else (false, ALLOW, true)
  else if slot = ALLOW then (false, ALLOW, false)
  else (true, DIVERT, false)

/-- The OS-table match on an IPv4 snapshot as the specification words it: the
app filter's verdict on the owning pid of the first record whose local port is
`port` and whose local address is `addr` (or, when `wildcard` is set, is
`0.0.0.0`); `false` when no record matches. -/
def osMatchSpec4 (app : Nat → Bool) (rs : List Row4) (port addr : Nat) (wildcard : Bool) :
    Bool :=
  match rs.find? (fun r => r.LocalPort == port && (r.LocalAddr == addr
      || (wildcard && r.LocalAddr == 0))) with
  | some r => app r.OwningPid
  | none => false

/-- The all-zero IPv6 address. -/
def zeroAddr6 : U32x4 := ⟨0, 0, 0, 0⟩

/-- The OS-table match on an IPv6 snapshot as the specification words it. -/
def osMatchSpec6 (app : Nat → Bool) (rs : List Row6) (port : Nat) (addr : U32x4)
    (wildcard : Bool) : Bool :=
  match rs.find? (fun r => r.LocalPort == port && (r.LocalAddr == addr
      || (wildcard && r.LocalAddr == zeroAddr6))) with
  | some r => app r.OwningPid
  | none => false

/-- The IPv4 source address of a packet, bytes 12..15, as the `uint32` the OS
table holds. -/
def srcAddr4 (b : Slice) : Nat := le32 (b.bytes 12 4)

/-- The IPv6 source address of a packet, bytes 8..23, as the `[4]uint32` the
OS table holds. -/
def srcAddr6 (b : Slice) : U32x4 := le32x4 (b.bytes 8 16)

/-! ## Well-formed batches -/

/-- The 16-bit big-endian value held in bytes `i`, `i+1` of a packet. -/
def beAt (p : List Byte) (i : Nat) : Nat :=
  ((p.getD i 0).val <<< 8) ||| (p.getD (i + 1) 0).val

/-- The version nibble of a packet. -/
def versionOf (p : List Byte) : Nat := (p.getD 0 0).val >>> 4

/-- A well-formed packet of a batch: IPv4 or IPv6, its declared total length
(bytes 2..3, resp. 40 plus bytes 4..5) equal to its actual length, and long
enough for the header fields the classifier reads (34 bytes for IPv4 TCP, 24
for IPv4 UDP, 20 otherwise; 54, 44 and 40 for IPv6). -/
def wellFormed (p : List Byte) : Prop :=
  (versionOf p = ipv4Version ∧ beAt p 2 = p.length ∧ 20 ≤ p.length ∧
    ((p.getD 9 0).val = ProtocolTCP → 34 ≤ p.length) ∧
    ((p.getD 9 0).val = ProtocolUDP → 24 ≤ p.length)) ∨
  (versionOf p = ipv6Version ∧ beAt p 4 + ipv6HeaderLen = p.length ∧
    ((p.getD 6 0).val = ProtocolTCP → 54 ≤ p.length) ∧
    ((p.getD 6 0).val = ProtocolUDP → 44 ≤ p.length))

instance (p : List Byte) : Decidable (wellFormed p) := by
  unfold wellFormed
  infer_instance

/-- A packet as `SendEx` gets it back: with byte 8 (IPv4 TTL) resp. byte 7
(IPv6 hop limit) set to zero when the packet was diverted, unchanged
otherwise. -/
def zeroTTL (diverted : Bool) (p : List Byte) : List Byte :=
  if diverted then
    if versionOf p = ipv4Version then p.set 8 0 else p.set 7 0
  else p

/-- An address as `SendEx` gets it back: with the bits `0x80|0x40|0x20|0x08`
OR-ed into its flags when the packet was diverted, unchanged otherwise. -/
def markAddr (diverted : Bool) (x : Address) : Address :=
  if diverted then { x with Flags := x.Flags ||| (0x80 ||| 0x40 ||| 0x20 ||| 0x08) } else x

/-- The start offsets of the packets of a batch laid out from offset `off`. -/
def starts (off : Nat) : List (List Byte) → List Nat
  | [] => []
  | p :: ps => off :: starts (off + p.length) ps

/-- The state after the iteration of the walk that handles packet `p` at
offset `off` with classifier outcome `o`. -/
def afterPacket (st : Batch) (pre p t : List Byte) (i : Nat) (o : Outcome) : Batch :=
  { b := pre ++ (zeroTTL o.verdict p ++ t),
    a := if o.verdict then orFlags st.a i else st.a,
    dev := o.dev,
    w := if o.verdict then st.w ++ [p] else st.w,
    timers := st.timers ++ o.timers,
    calls := st.calls ++ [(pre.length, o.verdict)] }

/-- The sink writes of a walk over well-formed packets: the diverted packets,
as received, in order. -/
def divertedOf : List Bool → List (List Byte) → List (List Byte)
  | v :: vs, p :: ps => if v then p :: divertedOf vs ps else divertedOf vs ps
  | _, _ => []

/-- Some slot of some table holds `UNKNOWN` in `d` and `v` in `d1`. -/
def becomes (d d1 : Device) (v : Nat) : Prop :=
  ∃ q, (d.TCP q = UNKNOWN ∧ d1.TCP q = v) ∨ (d.UDP q = UNKNOWN ∧ d1.UDP q = v)
    ∨ (d.TCP6 q = UNKNOWN ∧ d1.TCP6 q = v) ∨ (d.UDP6 q = UNKNOWN ∧ d1.UDP6 q = v)

/-! ## Example inputs

The filters of the end-to-end scenarios of the specification: the IP filter
holds `8.8.8.8`, the app filter holds pid `1234`. -/

/-- A packet whose slice has no spare capacity. -/
def pktOf (l : List Byte) : Slice := ⟨l, l.length⟩

/-- The scenario filters with empty OS tables. -/
def exEnv : Env :=
  ⟨fun ip => ip == [8, 8, 8, 8], fun pid => pid == 1234, some [], some [], some [], some []⟩

/-- All four tables `UNKNOWN`. -/
def exDev : Device := ⟨fun _ => 0, fun _ => 0, fun _ => 0, fun _ => 0⟩

/-- IPv4 TCP SYN, 10.0.0.2:55001 to 8.8.8.8:443. -/
def exSyn4 : List Byte :=
  [0x45, 0, 0, 40, 0, 0, 0, 0, 64, 6, 0, 0, 10, 0, 0, 2, 8, 8, 8, 8,
   0xd6, 0xd9, 1, 0xbb, 0, 0, 0, 0, 0, 0, 0, 0, 0x50, 0x02, 0, 0, 0, 0, 0, 0]

/-- IPv4 TCP ACK (no SYN, no FIN), 10.0.0.2:55002 to 1.1.1.1:443. -/
def exAck4 : List Byte :=
  [0x45, 0, 0, 40, 0, 0, 0, 0, 64, 6, 0, 0, 10, 0, 0, 2, 1, 1, 1, 1,
   0xd6, 0xda, 1, 0xbb, 0, 0, 0, 0, 0, 0, 0, 0, 0x50, 0x10, 0, 0, 0, 0, 0, 0]

/-- IPv4 TCP FIN+ACK, 10.0.0.2:55001 to 8.8.8.8:443. -/
def exFin4 : List Byte :=
  [0x45, 0, 0, 40, 0, 0, 0, 0, 64, 6, 0, 0, 10, 0, 0, 2, 8, 8, 8, 8,
   0xd6, 0xd9, 1, 0xbb, 0, 0, 0, 0, 0, 0, 0, 0, 0x50, 0x11, 0, 0, 0, 0, 0, 0]

/-- IPv4 UDP, 10.0.0.2:55003 to 9.9.9.9:53. -/
def exDns4 : List Byte :=
  [0x45, 0, 0, 28, 0, 0, 0, 0, 64, 17, 0, 0, 10, 0, 0, 2, 9, 9, 9, 9,
   0xd6, 0xdb, 0, 53, 0, 8, 0, 0]

/-- IPv4 UDP, 10.0.0.2:55003 to 8.8.8.8:53: a DNS query to a filtered address. -/
def exDnsFiltered4 : List Byte :=
  [0x45, 0, 0, 28, 0, 0, 0, 0, 64, 17, 0, 0, 10, 0, 0, 2, 8, 8, 8, 8,
   0xd6, 0xdb, 0, 53, 0, 8, 0, 0]

/-- IPv4 ICMP echo request, 10.0.0.2 to 8.8.8.8. -/
def exIcmp4 : List Byte :=
  [0x45, 0, 0, 28, 0, 0, 0, 0, 64, 1, 0, 0, 10, 0, 0, 2, 8, 8, 8, 8,
   8, 0, 0, 0, 0, 0, 0, 0]

/-- The fixed IPv6 header of a packet from fd00::1 to 2001:db8::1 with the
given payload length and next header. -/
def exHdr6 (plen next : Byte) : List Byte :=
  [0x60, 0, 0, 0, 0, plen, next, 64,
   0xfd, 0, 0, 0, 0, 0, 0, 0, 0, 0, 0, 0, 0, 0, 0, 1,
   0x20, 0x01, 0x0d, 0xb8, 0, 0, 0, 0, 0, 0, 0, 0, 0, 0, 0, 1]

/-- IPv6 TCP SYN, [fd00::1]:55006 to [2001:db8::1]:443. -/
def exSyn6 : List Byte :=
  exHdr6 20 6 ++ [0xd6, 0xde, 1, 0xbb, 0, 0, 0, 0, 0, 0, 0, 0, 0x50, 0x02, 0, 0, 0, 0, 0, 0]

/-- IPv6 TCP ACK (no SYN, no FIN), [fd00::1]:55006 to [2001:db8::1]:443. -/
def exAck6 : List Byte :=
  exHdr6 20 6 ++ [0xd6, 0xde, 1, 0xbb, 0, 0, 0, 0, 0, 0, 0, 0, 0x50, 0x10, 0, 0, 0, 0, 0, 0]

/-- IPv6 TCP FIN+ACK, [fd00::1]:55006 to [2001:db8::1]:443. -/
def exFin6 : List Byte :=
  exHdr6 20 6 ++ [0xd6, 0xde, 1, 0xbb, 0, 0, 0, 0, 0, 0, 0, 0, 0x50, 0x11, 0, 0, 0, 0, 0, 0]

/-- IPv6 UDP, [fd00::1]:55005 to [2001:db8::1]:443. -/
def exUdp6 : List Byte :=
  exHdr6 8 17 ++ [0xd6, 0xdd, 1, 0xbb, 0, 8, 0, 0]

/-- IPv6 UDP, [fd00::1]:55005 to [2001:db8::1]:53. -/
def exDns6 : List Byte :=
  exHdr6 8 17 ++ [0xd6, 0xdd, 0, 53, 0, 8, 0, 0]

/-- IPv6 ICMPv6 echo request, fd00::1 to 2001:db8::1. -/
def exIcmp6 : List Byte :=
  exHdr6 8 58 ++ [128, 0, 0, 0, 0, 0, 0, 0]

/-- IPv4 IGMP, 10.0.0.9 to 8.8.8.8. -/
def exIgmp4 : List Byte :=
  [0x46, 0, 0, 32, 0, 0, 0, 0, 1, 2, 0, 0, 10, 0, 0, 9, 8, 8, 8, 8,
   0x94, 4, 0, 0, 0x11, 0, 0, 0, 0, 0, 0, 0]

/-- IPv6 with no next header (59), fd00::1 to 2001:db8::1. -/
def exNoNext6 : List Byte := exHdr6 0 59

/-- The address fd00::1 as the `[4]uint32` of an OS-table row. -/
def exAddr6 : U32x4 := ⟨0xfd, 0, 0, 0x01000000⟩

/-- The address 10.0.0.2 as the `uint32` of an OS-table row. -/
def exAddr4 : Nat := 0x0200000a

/-- The scenario filters with OS tables in which pid 1234 owns the local ports
55001 .. 55006 of the example packets (ports in the host-order form the
tables store). -/
def exEnvOwned : Env :=
  { exEnv with
    tcpTable := some [⟨exAddr4, 0xdad6, 1234⟩, ⟨exAddr4, 0xdcd6, 1234⟩],
    udpTable := some [⟨0, 0xdbd6, 1234⟩],
    tcp6Table := some [⟨exAddr6, 0xded6, 1234⟩],
    udp6Table := some [⟨exAddr6, 0xddd6, 1234⟩] }

/-- The tables with `TCP[55001]` and `TCP6[55006]` in `DIVERT`. -/
def exDevDivert : Device :=
  { exDev with TCP := setSlot exDev.TCP 55001 DIVERT, TCP6 := setSlot exDev.TCP6 55006 DIVERT }

/-- An address record as `RecvEx` might deliver it. -/
def exAddr : Address := ⟨0, 1, 7, 0, 1⟩

/-- A world in which every sink write succeeds and the filters are those of
the scenarios. -/
def exWorld : World := ⟨fun _ => exEnv, fun _ _ => true, false⟩

/-- A batch buffer: the filtered SYN followed by four bytes whose first has
the version nibble 5. -/
def exBadBuf : List Byte := exSyn4 ++ [0x50, 0, 0, 0]

/-- The state of the walk over `exBadBuf` after its first packet: the SYN was
diverted. -/
def exAfterSyn : Batch :=
  afterPacket ⟨exBadBuf, [exAddr, exAddr], exDev, [], [], []⟩ [] exSyn4 [0x50, 0, 0, 0] 0
    ⟨true, { exDev with TCP := setSlot exDev.TCP 55001 DIVERT }, []⟩

/-- The state in which `WriteTo` returns when the sink refuses the write of the
packet `p` at offset `off`, classified with outcome `o`. -/
def failedWrite (st : Batch) (off : Nat) (p : List Byte) (o : Outcome) : Batch :=
  { st with dev := o.dev, timers := st.timers ++ o.timers,
            calls := st.calls ++ [(off, o.verdict)], w := st.w ++ [p] }

/-- The length `l` a packet that starts at offset `start` of the buffer
declares: the big-endian value of its bytes 2..3 when it is IPv4, 40 plus the
big-endian value of its bytes 4..5 otherwise. -/
def declaredLen (b : List Byte) (start : Nat) : Nat :=
  if (b.getD start 0).val >>> 4 = ipv4Version then beAt b (start + 2)
  else beAt b (start + 4) + 40

/-- The sink writes the specification expects for a received buffer `b`: for
each classify call with verdict true, in order, the bytes
`[start, start + l)` of `b`. -/
def writesSpec (b : List Byte) (calls : List (Nat × Bool)) : List (List Byte) :=
  calls.filterMap (fun c =>
    if c.2 then some ((b.drop c.1).take (declaredLen b c.1)) else none)

/-- A world in which the sink refuses every write. -/
def exWorldFailing : World := ⟨fun _ => exEnv, fun _ _ => false, false⟩

/-! ## `Close` and `Write` -/

/-- The errors `Write` can return: `io.EOF`, `io.ErrClosedPipe`, or another
error of the pipe. -/
inductive WriteErr where
  | EOF
  | ErrClosedPipe
  | other
  deriving DecidableEq, Repr

/-- The errors `Close` can return. -/
inductive CloseErr where
  | shutdownHandle
  | closeHandle
  deriving DecidableEq, Repr

/-- The part of the device that `Close` and `Write` share: whether the channel
`d.active` is closed, whether the pipe ends `d.r` and `d.w` are closed, and
whether the one-element buffer of the channel `d.event` is full. -/
structure Life where
  activeClosed : Bool
  rClosed : Bool
  wClosed : Bool
  eventFull : Bool
  deriving DecidableEq, Repr

/-- The channels and the pipe as `NewDevice` makes them. -/
def NewDevice : Life := ⟨false, false, false, false⟩

/-- The method `Close`, run to completion as one step; `shutdownOk` and
`closeOk` tell whether `Handle.Shutdown` and `Handle.Close` succeed. -/
def Close (s : Life) (shutdownOk closeOk : Bool) : Life × Option CloseErr :=
  if s.activeClosed then (s, none)
  else
    let s1 : Life := { s with activeClosed := true, rClosed := true, wClosed := true }
    if !shutdownOk then (s1, some CloseErr.shutdownHandle)
    else if !closeOk then (s1, some CloseErr.closeHandle)
    else (s1, none)

/-- The call `d.w.Write(b)` on the `io.Pipe` of the Go standard library: once
either end of the pipe has been closed it returns `(0, io.ErrClosedPipe)`;
on an open pipe its result `res b` is up to the reader. -/
def pipeWrite (s : Life) (res : List Byte → Nat × Option WriteErr) (b : List Byte) :
    Nat × Option WriteErr :=
  if s.rClosed || s.wClosed then (0, some WriteErr.ErrClosedPipe) else res b

/-- The two communications of the `select` at the head of `Write`. -/
inductive Branch where
  | active
  | event
  deriving DecidableEq, Repr

/-- The method `Write` when its `select` takes the branch `br`: `none` when
that branch is not ready (`<-d.active` is ready once the channel is closed,
`d.event <- struct{}{}` while the buffer of the channel has room); otherwise
the state after the call and the pair `(n, err)` returned. -/
def Write (s : Life) (br : Branch) (res : List Byte → Nat × Option WriteErr) (b : List Byte) :
    Option (Life × Nat × Option WriteErr) :=
  match br with
  | Branch.active => if s.activeClosed then some (s, 0, some WriteErr.EOF) else none
  | Branch.event =>
    if s.eventFull then none
    else
      let s1 : Life := { s with eventFull := true }
      match pipeWrite s1 res b with
      | (n, none) => some (s1, n, none)
      | (n, some err) =>
        if s1.activeClosed then some (s1, 0, some WriteErr.EOF) else some (s1, n, some err)

/-- No `Close` is half-way: if `d.active` is closed, so are both pipe ends. -/
def Settled (s : Life) : Prop :=
  s.activeClosed = true → s.rClosed = true ∧ s.wClosed = true

instance (s : Life) : Decidable (Settled s) := by
  unfold Settled
  infer_instance

/-- A reader that takes every packet whole. -/
def exReader : List Byte → Nat × Option WriteErr := fun b => (b.length, none)

/-- The timers a UDP classification starts: one reset of slot `p` of table `t`
after a minute, or none. -/
def resetOf (sched : Bool) (t : Table) (p : Nat) : List Timer :=
  if sched then [⟨Minute, t, p⟩] else []

/-! ## Basic facts about slices -/

theorem Slice.idx_eq (b : Slice) (i : Nat) (hcap : b.len ≤ b.mem.length) (h : i < b.len) :
    b.idx i = some (b.byte i) := by
  have hi : i < b.mem.length := by omega
  simp [Slice.idx, Slice.byte, h, List.getD, List.getElem?_eq_getElem hi]

theorem Slice.sub_eq (b : Slice) (lo hi : Nat) (hlo : lo ≤ hi) (hhi : hi ≤ b.mem.length) :
    b.sub lo hi = some (b.bytes lo (hi - lo)) := by
  simp [Slice.sub, Slice.bytes, hlo, hhi]

theorem Slice.raw_eq (b : Slice) (i n : Nat) (hi : i < b.len) (hn : i + n ≤ b.mem.length) :
    b.raw i n = some (b.bytes i n) := by
  simp [Slice.raw, Slice.bytes, hi, hn]

theorem bePort_lt (b : Slice) (off : Nat) : bePort b off < 65536 := by
  unfold bePort
  have h1 := (b.byte off).isLt
  have h2 := (b.byte (off + 1)).isLt
  have : (b.byte off).val <<< 8 < 2 ^ 16 := by
    rw [Nat.shiftLeft_eq]; omega
  exact Nat.or_lt_two_pow this (by omega)

/-! ## The OS-table matchers return -/

theorem scanTCP4_isSome (env : Env) (b : Slice) (p : Nat) (rs : List Row4)
    (h12 : 12 < b.len) (h16 : 16 ≤ b.mem.length) :
    ∃ m, scanTCP4 env b p rs = some m := by
  induction rs with
  | nil => exact ⟨false, rfl⟩
  | cons r rs ih =>
    simp only [scanTCP4, Slice.raw_eq b 12 4 h12 h16]
    split
    · split
      · exact ⟨_, rfl⟩
      · exact ih
    · exact ih

theorem CheckTCP4_isSome (env : Env) (b : Slice) (hcap : b.len ≤ b.mem.length)
    (hlen : 22 ≤ b.len) : ∃ m, CheckTCP4 env b = some m := by
  unfold CheckTCP4
  cases env.tcpTable with
  | none => exact ⟨false, rfl⟩
  | some rs =>
    simp only [ipv4HeaderLen, Slice.idx_eq b 20 hcap (by omega), Slice.idx_eq b 21 hcap (by omega)]
    exact scanTCP4_isSome env b _ rs (by omega) (by omega)

theorem scanUDP4_isSome (env : Env) (b : Slice) (p : Nat) (rs : List Row4)
    (h12 : 12 < b.len) (h16 : 16 ≤ b.mem.length) :
    ∃ m, scanUDP4 env b p rs = some m := by
  induction rs with
  | nil => exact ⟨false, rfl⟩
  | cons r rs ih =>
    simp only [scanUDP4, Slice.raw_eq b 12 4 h12 h16]
    split
    · split
      · exact ⟨_, rfl⟩
      · split
        · exact ⟨_, rfl⟩
        · exact ih
    · exact ih

theorem CheckUDP4_isSome (env : Env) (b : Slice) (hcap : b.len ≤ b.mem.length)
    (hlen : 22 ≤ b.len) : ∃ m, CheckUDP4 env b = some m := by
  unfold CheckUDP4
  cases env.udpTable with
  | none => exact ⟨false, rfl⟩
  | some rs =>
    simp only [ipv4HeaderLen, Slice.idx_eq b 20 hcap (by omega), Slice.idx_eq b 21 hcap (by omega)]
    exact scanUDP4_isSome env b _ rs (by omega) (by omega)

theorem CheckTCP6_isSome (env : Env) (b : Slice) (hcap : b.len ≤ b.mem.length)
    (hlen : 42 ≤ b.len) : ∃ m, CheckTCP6 env b = some m := by
  unfold CheckTCP6
  cases env.tcp6Table with
  | none => exact ⟨false, rfl⟩
  | some rs =>
    simp only [ipv6HeaderLen, Slice.idx_eq b 40 hcap (by omega), Slice.idx_eq b 41 hcap (by omega),
      Slice.raw_eq b 8 16 (by omega) (by omega)]
    exact ⟨_, rfl⟩

theorem CheckUDP6_isSome (env : Env) (b : Slice) (hcap : b.len ≤ b.mem.length)
    (hlen : 42 ≤ b.len) : ∃ m, CheckUDP6 env b = some m := by
  unfold CheckUDP6
  cases env.udp6Table with
  | none => exact ⟨false, rfl⟩
  | some rs =>
    simp only [ipv6HeaderLen, Slice.idx_eq b 40 hcap (by omega), Slice.idx_eq b 41 hcap (by omega),
      Slice.raw_eq b 0 16 (by omega) (by omega)]
    exact ⟨_, rfl⟩

theorem setSlot_self (t : Nat → Nat) (p : Nat) : setSlot t p (t p) = t := by
  funext q
  unfold setSlot
  split
  · next h => rw [h]
  · rfl

/-! ## The TCP state machine -/

theorem CheckIPv4_tcp (env : Env) (d : Device) (b : Slice) (hcap : b.len ≤ b.mem.length)
    (hlen : 34 ≤ b.len) (hproto : (b.byte 9).val = ProtocolTCP)
    (hslot : d.TCP (bePort b 20) ≤ 2) (m : Bool) (hm : CheckTCP4 env b = some m) :
    CheckIPv4 env d b = some
      ⟨(tcpMachineSpec (d.TCP (bePort b 20)) (hasFlag b 20 SYN) (hasFlag b 20 FIN)
          (env.ipLookup (b.bytes 16 4)) m).1,
       { d with TCP := (setSlot d.TCP (bePort b 20)
          (tcpMachineSpec (d.TCP (bePort b 20)) (hasFlag b 20 SYN) (hasFlag b 20 FIN)
            (env.ipLookup (b.bytes 16 4)) m).2) },
       []⟩ := by
  have h9 := Slice.idx_eq b 9 hcap (by omega)
  have h20 := Slice.idx_eq b 20 hcap (by omega)
  have h21 := Slice.idx_eq b 21 hcap (by omega)
  have h33 := Slice.idx_eq b 33 hcap (by omega)
  have hs := Slice.sub_eq b 16 20 (by omega) (by omega)
  have hp : (b.byte 20).val <<< 8 ||| (b.byte 21).val = bePort b 20 := rfl
  simp only [CheckIPv4, ipv4HeaderLen, h9, h20, h21, h33, hs, hm, hproto, hp,
    Option.bind_eq_bind, Option.some_bind, Option.pure_def, if_true]
  have hcases : d.TCP (bePort b 20) = 0 ∨ d.TCP (bePort b 20) = 1 ∨ d.TCP (bePort b 20) = 2 := by
    omega
  rcases hcases with h | h | h
  · rw [h]
    simp only [tcpMachineSpec, hasFlag, UNKNOWN, ALLOW, DIVERT]
    by_cases hsyn : (b.byte 33).val &&& SYN = SYN
    · by_cases hip : env.ipLookup (b.bytes 16 4) = true
      · simp [hsyn, hip]
      · cases m <;> simp [hsyn, hip]
    · simp [hsyn]
  · rw [h]
    simp only [tcpMachineSpec, hasFlag, UNKNOWN, ALLOW, DIVERT]
    by_cases hfin : (b.byte 33).val &&& FIN = FIN
    · simp [hfin]
    · simp [hfin]
      rw [← h, setSlot_self]
  · rw [h]
    simp only [tcpMachineSpec, hasFlag, UNKNOWN, ALLOW, DIVERT]
    by_cases hfin : (b.byte 33).val &&& FIN = FIN
    · simp [hfin]
    · simp [hfin]
      rw [← h, setSlot_self]

theorem CheckIPv6_tcp (env : Env) (d : Device) (b : Slice) (hcap : b.len ≤ b.mem.length)
    (hlen : 54 ≤ b.len) (hproto : (b.byte 6).val = ProtocolTCP)
    (hslot : d.TCP6 (bePort b 40) ≤ 2) (m : Bool) (hm : CheckTCP6 env b = some m) :
    CheckIPv6 env d b = some
      ⟨(tcpMachineSpec (d.TCP6 (bePort b 40)) (hasFlag b 40 SYN) (hasFlag b 40 FIN)
          (env.ipLookup (b.bytes 24 16)) m).1,
       { d with TCP6 := (setSlot d.TCP6 (bePort b 40)
          (tcpMachineSpec (d.TCP6 (bePort b 40)) (hasFlag b 40 SYN) (hasFlag b 40 FIN)
            (env.ipLookup (b.bytes 24 16)) m).2) },
       []⟩ := by
  have h6 := Slice.idx_eq b 6 hcap (by omega)
  have h40 := Slice.idx_eq b 40 hcap (by omega)
  have h41 := Slice.idx_eq b 41 hcap (by omega)
  have h53 := Slice.idx_eq b 53 hcap (by omega)
  have hs := Slice.sub_eq b 24 40 (by omega) (by omega)
  have hp : (b.byte 40).val <<< 8 ||| (b.byte 41).val = bePort b 40 := rfl
  simp only [CheckIPv6, ipv6HeaderLen, h6, h40, h41, h53, hs, hm, hproto, hp,
    Option.bind_eq_bind, Option.some_bind, Option.pure_def, if_true]
  have hcases : d.TCP6 (bePort b 40) = 0 ∨ d.TCP6 (bePort b 40) = 1
      ∨ d.TCP6 (bePort b 40) = 2 := by
    omega
  rcases hcases with h | h | h
  · rw [h]
    simp only [tcpMachineSpec, hasFlag, UNKNOWN, ALLOW, DIVERT]
    by_cases hsyn : (b.byte 53).val &&& SYN = SYN
    · by_cases hip : env.ipLookup (b.bytes 24 16) = true
      · simp [hsyn, hip]
      · cases m <;> simp [hsyn, hip]
    · simp [hsyn]
  · rw [h]
    simp only [tcpMachineSpec, hasFlag, UNKNOWN, ALLOW, DIVERT]
    by_cases hfin : (b.byte 53).val &&& FIN = FIN
    · simp [hfin]
    · simp [hfin]
      rw [← h, setSlot_self]
  · rw [h]
    simp only [tcpMachineSpec, hasFlag, UNKNOWN, ALLOW, DIVERT]
    by_cases hfin : (b.byte 53).val &&& FIN = FIN
    · simp [hfin]
    · simp [hfin]
      rw [← h, setSlot_self]

/-! ## The UDP state machine -/

theorem CheckIPv4_udp (env : Env) (d : Device) (b : Slice) (hcap : b.len ≤ b.mem.length)
    (hlen : 24 ≤ b.len) (hproto : (b.byte 9).val = ProtocolUDP)
    (hslot : d.UDP (bePort b 20) ≤ 2) (m : Bool) (hm : CheckUDP4 env b = some m) :
    CheckIPv4 env d b = some
      ⟨(udpMachineSpec (d.UDP (bePort b 20)) (env.ipLookup (b.bytes 16 4)) m
          (bePort b 22 == 53)).1,
       { d with UDP := (setSlot d.UDP (bePort b 20)
          (udpMachineSpec (d.UDP (bePort b 20)) (env.ipLookup (b.bytes 16 4)) m
            (bePort b 22 == 53)).2.1) },
       resetOf (udpMachineSpec (d.UDP (bePort b 20)) (env.ipLookup (b.bytes 16 4)) m
            (bePort b 22 == 53)).2.2 Table.UDP (bePort b 20)⟩ := by
  have h9 := Slice.idx_eq b 9 hcap (by omega)
  have h20 := Slice.idx_eq b 20 hcap (by omega)
  have h21 := Slice.idx_eq b 21 hcap (by omega)
  have h22 := Slice.idx_eq b 22 hcap (by omega)
  have h23 := Slice.idx_eq b 23 hcap (by omega)
  have hs := Slice.sub_eq b 16 20 (by omega) (by omega)
  have hp : (b.byte 20).val <<< 8 ||| (b.byte 21).val = bePort b 20 := rfl
  have hq : (b.byte 22).val <<< 8 ||| (b.byte 23).val = bePort b 22 := rfl
  have hne : ¬ ProtocolUDP = ProtocolTCP := by decide
  simp only [CheckIPv4, ipv4HeaderLen, h9, h20, h21, h22, h23, hs, hm, hproto, hp, hq, hne,
    Option.bind_eq_bind, Option.some_bind, Option.pure_def, if_true, if_false]
  have hcases : d.UDP (bePort b 20) = 0 ∨ d.UDP (bePort b 20) = 1 ∨ d.UDP (bePort b 20) = 2 := by
    omega
  rcases hcases with h | h | h
  · rw [h]
    simp only [udpMachineSpec, resetOf, UNKNOWN, ALLOW, DIVERT]
    by_cases hip : env.ipLookup (b.bytes 16 4) = true
    · simp [hip]
    · cases m
      · by_cases hdns : bePort b 22 = 53
        · simp [hip, hdns]
          rw [← h, setSlot_self]
        · simp [hip, hdns]
      · simp [hip]
  · rw [h]
    simp [udpMachineSpec, resetOf, UNKNOWN, ALLOW, DIVERT]
    rw [← h, setSlot_self]
  · rw [h]
    simp [udpMachineSpec, resetOf, UNKNOWN, ALLOW, DIVERT]
    rw [← h, setSlot_self]

theorem CheckIPv6_udp (env : Env) (d : Device) (b : Slice) (hcap : b.len ≤ b.mem.length)
    (hlen : 44 ≤ b.len) (hproto : (b.byte 6).val = ProtocolUDP)
    (hslot : d.UDP6 (bePort b 40) ≤ 2) (m : Bool) (hm : CheckUDP6 env b = some m) :
    CheckIPv6 env d b = some
      ⟨(udpMachineSpec (d.UDP6 (bePort b 40)) (env.ipLookup (b.bytes 24 16)) m
          (bePort b 42 == 53)).1,
       { d with UDP6 := (setSlot d.UDP6 (bePort b 40)
          (udpMachineSpec (d.UDP6 (bePort b 40)) (env.ipLookup (b.bytes 24 16)) m
            (bePort b 42 == 53)).2.1) },
       resetOf (udpMachineSpec (d.UDP6 (bePort b 40)) (env.ipLookup (b.bytes 24 16)) m
            (bePort b 42 == 53)).2.2 Table.UDP6 (bePort b 40)⟩ := by
  have h6 := Slice.idx_eq b 6 hcap (by omega)
  have h40 := Slice.idx_eq b 40 hcap (by omega)
  have h41 := Slice.idx_eq b 41 hcap (by omega)
  have h42 := Slice.idx_eq b 42 hcap (by omega)
  have h43 := Slice.idx_eq b 43 hcap (by omega)
  have hs := Slice.sub_eq b 24 40 (by omega) (by omega)
  have hp : (b.byte 40).val <<< 8 ||| (b.byte 41).val = bePort b 40 := rfl
  have hq : (b.byte 42).val <<< 8 ||| (b.byte 43).val = bePort b 42 := rfl
  have hne : ¬ ProtocolUDP = ProtocolTCP := by decide
  simp only [CheckIPv6, ipv6HeaderLen, h6, h40, h41, h42, h43, hs, hm, hproto, hp, hq, hne,
    Option.bind_eq_bind, Option.some_bind, Option.pure_def, if_true, if_false]
  have hcases : d.UDP6 (bePort b 40) = 0 ∨ d.UDP6 (bePort b 40) = 1
      ∨ d.UDP6 (bePort b 40) = 2 := by
    omega
  rcases hcases with h | h | h
  · rw [h]
    simp only [udpMachineSpec, resetOf, UNKNOWN, ALLOW, DIVERT]
    by_cases hip : env.ipLookup (b.bytes 24 16) = true
    · simp [hip]
    · cases m
      · by_cases hdns : bePort b 42 = 53
        · simp [hip, hdns]
          rw [← h, setSlot_self]
        · simp [hip, hdns]
      · simp [hip]
  · rw [h]
    simp [udpMachineSpec, resetOf, UNKNOWN, ALLOW, DIVERT]
    rw [← h, setSlot_self]
  · rw [h]
    simp [udpMachineSpec, resetOf, UNKNOWN, ALLOW, DIVERT]
    rw [← h, setSlot_self]

/-! ## Other protocols -/

theorem CheckIPv4_other (env : Env) (d : Device) (b : Slice) (hcap : b.len ≤ b.mem.length)
    (hlen : 9 < b.len) (h20 : 20 ≤ b.mem.length) (htcp : (b.byte 9).val ≠ ProtocolTCP)
    (hudp : (b.byte 9).val ≠ ProtocolUDP) :
    CheckIPv4 env d b = some ⟨env.ipLookup (b.bytes 16 4), d, []⟩ := by
  have h9 := Slice.idx_eq b 9 hcap hlen
  have hs := Slice.sub_eq b 16 20 (by omega) h20
  simp [CheckIPv4, h9, hs, htcp, hudp]

theorem CheckIPv6_other (env : Env) (d : Device) (b : Slice) (hcap : b.len ≤ b.mem.length)
    (hlen : 6 < b.len) (h40 : 40 ≤ b.mem.length) (htcp : (b.byte 6).val ≠ ProtocolTCP)
    (hudp : (b.byte 6).val ≠ ProtocolUDP) :
    CheckIPv6 env d b = some ⟨env.ipLookup (b.bytes 24 16), d, []⟩ := by
  have h6 := Slice.idx_eq b 6 hcap hlen
  have hs := Slice.sub_eq b 24 40 (by omega) h40
  simp [CheckIPv6, h6, hs, htcp, hudp]

/-! ## The OS-table matchers against the specification -/

theorem eq4_iff (a x : U32x4) : eq4 a x = true ↔ x = a := by
  cases a; cases x
  simp only [eq4, Bool.and_eq_true, beq_iff_eq, U32x4.mk.injEq]
  constructor
  · rintro ⟨⟨⟨h0, h1⟩, h2⟩, h3⟩
    exact ⟨h0.symm, h1.symm, h2.symm, h3.symm⟩
  · rintro ⟨h0, h1, h2, h3⟩
    exact ⟨⟨⟨h0.symm, h1.symm⟩, h2.symm⟩, h3.symm⟩

theorem zero4_iff (x : U32x4) : zero4 x = true ↔ x = zeroAddr6 := by
  cases x
  simp only [zero4, zeroAddr6, Bool.and_eq_true, beq_iff_eq, U32x4.mk.injEq]
  constructor
  · rintro ⟨⟨⟨h0, h1⟩, h2⟩, h3⟩
    exact ⟨h0.symm, h1.symm, h2.symm, h3.symm⟩
  · rintro ⟨h0, h1, h2, h3⟩
    exact ⟨⟨⟨h0.symm, h1.symm⟩, h2.symm⟩, h3.symm⟩

theorem osMatchSpec4_cons (app : Nat → Bool) (r : Row4) (rs : List Row4) (port addr : Nat)
    (w : Bool) :
    osMatchSpec4 app (r :: rs) port addr w =
      if (r.LocalPort == port && (r.LocalAddr == addr || (w && r.LocalAddr == 0))) = true
      then app r.OwningPid else osMatchSpec4 app rs port addr w := by
  unfold osMatchSpec4
  rw [List.find?_cons]
  cases (r.LocalPort == port && (r.LocalAddr == addr || (w && r.LocalAddr == 0))) <;> simp

theorem osMatchSpec6_cons (app : Nat → Bool) (r : Row6) (rs : List Row6) (port : Nat)
    (addr : U32x4) (w : Bool) :
    osMatchSpec6 app (r :: rs) port addr w =
      if (r.LocalPort == port && (r.LocalAddr == addr || (w && r.LocalAddr == zeroAddr6))) = true
      then app r.OwningPid else osMatchSpec6 app rs port addr w := by
  unfold osMatchSpec6
  rw [List.find?_cons]
  cases (r.LocalPort == port && (r.LocalAddr == addr || (w && r.LocalAddr == zeroAddr6)))
    <;> simp

theorem scanTCP4_spec (env : Env) (b : Slice) (p : Nat) (rs : List Row4)
    (h12 : 12 < b.len) (h16 : 16 ≤ b.mem.length) :
    scanTCP4 env b p rs = some (osMatchSpec4 env.appLookup rs p (srcAddr4 b) false) := by
  induction rs with
  | nil => rfl
  | cons r rs ih =>
    simp only [scanTCP4, Slice.raw_eq b 12 4 h12 h16, osMatchSpec4_cons, ih]
    by_cases hp : r.LocalPort = p
    · by_cases ha : le32 (b.bytes 12 4) = r.LocalAddr
      · simp [hp, ha, srcAddr4]
      · have ha2 : ¬ r.LocalAddr = srcAddr4 b := fun h => ha h.symm
        simp [hp, ha, ha2]
    · simp [hp]

theorem scanUDP4_spec (env : Env) (b : Slice) (p : Nat) (rs : List Row4)
    (h12 : 12 < b.len) (h16 : 16 ≤ b.mem.length) :
    scanUDP4 env b p rs = some (osMatchSpec4 env.appLookup rs p (srcAddr4 b) true) := by
  induction rs with
  | nil => rfl
  | cons r rs ih =>
    simp only [scanUDP4, Slice.raw_eq b 12 4 h12 h16, osMatchSpec4_cons, ih]
    by_cases hp : r.LocalPort = p
    · by_cases hz : 0 = r.LocalAddr
      · simp [hp, hz.symm]
      · have hz2 : ¬ r.LocalAddr = 0 := fun h => hz h.symm
        by_cases ha : le32 (b.bytes 12 4) = r.LocalAddr
        · simp [hp, hz, ha, srcAddr4]
        · have ha2 : ¬ r.LocalAddr = srcAddr4 b := fun h => ha h.symm
          simp [hp, hz, ha, ha2, hz2]
    · simp [hp]

theorem scanTCP6_spec (env : Env) (a : U32x4) (p : Nat) (rs : List Row6) :
    scanTCP6 env a p rs = osMatchSpec6 env.appLookup rs p a false := by
  induction rs with
  | nil => rfl
  | cons r rs ih =>
    simp only [scanTCP6, osMatchSpec6_cons, ih]
    by_cases hp : r.LocalPort = p
    · by_cases ha : r.LocalAddr = a
      · simp [hp, ha, (eq4_iff a a).2 rfl]
      · have ha2 : ¬ eq4 a r.LocalAddr = true := fun h => ha ((eq4_iff _ _).1 h)
        simp [hp, ha, ha2]
    · simp [hp]

theorem scanUDP6_spec (env : Env) (a : U32x4) (p : Nat) (rs : List Row6) :
    scanUDP6 env a p rs = osMatchSpec6 env.appLookup rs p a true := by
  induction rs with
  | nil => rfl
  | cons r rs ih =>
    simp only [scanUDP6, osMatchSpec6_cons, ih]
    by_cases hp : r.LocalPort = p
    · by_cases hz : r.LocalAddr = zeroAddr6
      · simp [hp, hz, (zero4_iff zeroAddr6).2 rfl]
      · have hz2 : ¬ zero4 r.LocalAddr = true := fun h => hz ((zero4_iff _).1 h)
        by_cases ha : r.LocalAddr = a
        · simp [hp, ha, (eq4_iff a a).2 rfl]
        · have ha2 : ¬ eq4 a r.LocalAddr = true := fun h => ha ((eq4_iff _ _).1 h)
          simp [hp, ha, ha2, hz, hz2]
    · simp [hp]

/-! ## Slots outside the three states -/

theorem CheckIPv4_tcp_stale (env : Env) (d : Device) (b : Slice) (hcap : b.len ≤ b.mem.length)
    (hlen : 22 ≤ b.len) (hproto : (b.byte 9).val = ProtocolTCP)
    (hslot : 2 < d.TCP (bePort b 20)) :
    CheckIPv4 env d b = some ⟨false, d, []⟩ := by
  have h9 := Slice.idx_eq b 9 hcap (by omega)
  have h20 := Slice.idx_eq b 20 hcap (by omega)
  have h21 := Slice.idx_eq b 21 hcap (by omega)
  have hp : (b.byte 20).val <<< 8 ||| (b.byte 21).val = bePort b 20 := rfl
  simp only [CheckIPv4, ipv4HeaderLen, h9, h20, h21, hproto, hp,
    Option.bind_eq_bind, Option.some_bind, Option.pure_def, if_true]
  split
  · next h => omega
  · next h => omega
  · next h => omega
  · rfl

theorem CheckIPv4_udp_stale (env : Env) (d : Device) (b : Slice) (hcap : b.len ≤ b.mem.length)
    (hlen : 22 ≤ b.len) (hproto : (b.byte 9).val = ProtocolUDP)
    (hslot : 2 < d.UDP (bePort b 20)) :
    CheckIPv4 env d b = some ⟨false, d, []⟩ := by
  have h9 := Slice.idx_eq b 9 hcap (by omega)
  have h20 := Slice.idx_eq b 20 hcap (by omega)
  have h21 := Slice.idx_eq b 21 hcap (by omega)
  have hp : (b.byte 20).val <<< 8 ||| (b.byte 21).val = bePort b 20 := rfl
  have hne : ¬ ProtocolUDP = ProtocolTCP := by decide
  simp only [CheckIPv4, ipv4HeaderLen, h9, h20, h21, hproto, hp, hne,
    Option.bind_eq_bind, Option.some_bind, Option.pure_def, if_true, if_false]
  split
  · next h => omega
  · next h => omega
  · next h => omega
  · rfl

theorem CheckIPv6_tcp_stale (env : Env) (d : Device) (b : Slice) (hcap : b.len ≤ b.mem.length)
    (hlen : 42 ≤ b.len) (hproto : (b.byte 6).val = ProtocolTCP)
    (hslot : 2 < d.TCP6 (bePort b 40)) :
    CheckIPv6 env d b = some ⟨false, d, []⟩ := by
  have h6 := Slice.idx_eq b 6 hcap (by omega)
  have h40 := Slice.idx_eq b 40 hcap (by omega)
  have h41 := Slice.idx_eq b 41 hcap (by omega)
  have hp : (b.byte 40).val <<< 8 ||| (b.byte 41).val = bePort b 40 := rfl
  simp only [CheckIPv6, ipv6HeaderLen, h6, h40, h41, hproto, hp,
    Option.bind_eq_bind, Option.some_bind, Option.pure_def, if_true]
  split
  · next h => omega
  · next h => omega
  · next h => omega
  · rfl

theorem CheckIPv6_udp_stale (env : Env) (d : Device) (b : Slice) (hcap : b.len ≤ b.mem.length)
    (hlen : 42 ≤ b.len) (hproto : (b.byte 6).val = ProtocolUDP)
    (hslot : 2 < d.UDP6 (bePort b 40)) :
    CheckIPv6 env d b = some ⟨false, d, []⟩ := by
  have h6 := Slice.idx_eq b 6 hcap (by omega)
  have h40 := Slice.idx_eq b 40 hcap (by omega)
  have h41 := Slice.idx_eq b 41 hcap (by omega)
  have hp : (b.byte 40).val <<< 8 ||| (b.byte 41).val = bePort b 40 := rfl
  have hne : ¬ ProtocolUDP = ProtocolTCP := by decide
  simp only [CheckIPv6, ipv6HeaderLen, h6, h40, h41, hproto, hp, hne,
    Option.bind_eq_bind, Option.some_bind, Option.pure_def, if_true, if_false]
  split
  · next h => omega
  · next h => omega
  · next h => omega
  · rfl

theorem setSlot_same (t : Nat → Nat) (p v : Nat) : setSlot t p v p = v := by
  simp [setSlot]

theorem setSlot_other (t : Nat → Nat) (p v q : Nat) (h : q ≠ p) : setSlot t p v q = t q := by
  simp [setSlot, h]

/-! ## Every TCP or UDP classification, whatever the slot holds -/

theorem CheckIPv4_tcp_any (env : Env) (d : Device) (b : Slice) (hcap : b.len ≤ b.mem.length)
    (hlen : 34 ≤ b.len) (hproto : (b.byte 9).val = ProtocolTCP) :
    ∃ o m, CheckTCP4 env b = some m ∧ CheckIPv4 env d b = some o ∧ o.timers = [] ∧
      o.dev = { d with TCP := setSlot d.TCP (bePort b 20) (o.dev.TCP (bePort b 20)) } ∧
      (d.TCP (bePort b 20) ≤ 2 → (o.verdict, o.dev.TCP (bePort b 20)) =
        tcpMachineSpec (d.TCP (bePort b 20)) (hasFlag b 20 SYN) (hasFlag b 20 FIN)
          (env.ipLookup (b.bytes 16 4)) m) ∧
      (2 < d.TCP (bePort b 20) → o = ⟨false, d, []⟩) := by
  obtain ⟨m, hm⟩ := CheckTCP4_isSome env b hcap (by omega)
  by_cases hslot : d.TCP (bePort b 20) ≤ 2
  · exact ⟨_, m, hm, CheckIPv4_tcp env d b hcap hlen hproto hslot m hm, rfl,
      by simp [setSlot_same], fun _ => by simp [setSlot_same], fun h => by omega⟩
  · exact ⟨_, m, hm, CheckIPv4_tcp_stale env d b hcap (by omega) hproto (by omega), rfl,
      by simp [setSlot_self], fun h => by omega, fun _ => rfl⟩

theorem CheckIPv6_tcp_any (env : Env) (d : Device) (b : Slice) (hcap : b.len ≤ b.mem.length)
    (hlen : 54 ≤ b.len) (hproto : (b.byte 6).val = ProtocolTCP) :
    ∃ o m, CheckTCP6 env b = some m ∧ CheckIPv6 env d b = some o ∧ o.timers = [] ∧
      o.dev = { d with TCP6 := setSlot d.TCP6 (bePort b 40) (o.dev.TCP6 (bePort b 40)) } ∧
      (d.TCP6 (bePort b 40) ≤ 2 → (o.verdict, o.dev.TCP6 (bePort b 40)) =
        tcpMachineSpec (d.TCP6 (bePort b 40)) (hasFlag b 40 SYN) (hasFlag b 40 FIN)
          (env.ipLookup (b.bytes 24 16)) m) ∧
      (2 < d.TCP6 (bePort b 40) → o = ⟨false, d, []⟩) := by
  obtain ⟨m, hm⟩ := CheckTCP6_isSome env b hcap (by omega)
  by_cases hslot : d.TCP6 (bePort b 40) ≤ 2
  · exact ⟨_, m, hm, CheckIPv6_tcp env d b hcap hlen hproto hslot m hm, rfl,
      by simp [setSlot_same], fun _ => by simp [setSlot_same], fun h => by omega⟩
  · exact ⟨_, m, hm, CheckIPv6_tcp_stale env d b hcap (by omega) hproto (by omega), rfl,
      by simp [setSlot_self], fun h => by omega, fun _ => rfl⟩

theorem CheckIPv4_udp_any (env : Env) (d : Device) (b : Slice) (hcap : b.len ≤ b.mem.length)
    (hlen : 24 ≤ b.len) (hproto : (b.byte 9).val = ProtocolUDP) :
    ∃ o m, CheckUDP4 env b = some m ∧ CheckIPv4 env d b = some o ∧
      o.dev = { d with UDP := setSlot d.UDP (bePort b 20) (o.dev.UDP (bePort b 20)) } ∧
      (d.UDP (bePort b 20) ≤ 2 → (o.verdict, o.dev.UDP (bePort b 20), o.timers) =
        ((udpMachineSpec (d.UDP (bePort b 20)) (env.ipLookup (b.bytes 16 4)) m
            (bePort b 22 == 53)).1,
         (udpMachineSpec (d.UDP (bePort b 20)) (env.ipLookup (b.bytes 16 4)) m
            (bePort b 22 == 53)).2.1,
         resetOf (udpMachineSpec (d.UDP (bePort b 20)) (env.ipLookup (b.bytes 16 4)) m
            (bePort b 22 == 53)).2.2 Table.UDP (bePort b 20))) ∧
      (2 < d.UDP (bePort b 20) → o = ⟨false, d, []⟩) := by
  obtain ⟨m, hm⟩ := CheckUDP4_isSome env b hcap (by omega)
  by_cases hslot : d.UDP (bePort b 20) ≤ 2
  · exact ⟨_, m, hm, CheckIPv4_udp env d b hcap hlen hproto hslot m hm,
      by simp [setSlot_same], fun _ => by simp [setSlot_same], fun h => by omega⟩
  · exact ⟨_, m, hm, CheckIPv4_udp_stale env d b hcap (by omega) hproto (by omega),
      by simp [setSlot_self], fun h => by omega, fun _ => rfl⟩

theorem CheckIPv6_udp_any (env : Env) (d : Device) (b : Slice) (hcap : b.len ≤ b.mem.length)
    (hlen : 44 ≤ b.len) (hproto : (b.byte 6).val = ProtocolUDP) :
    ∃ o m, CheckUDP6 env b = some m ∧ CheckIPv6 env d b = some o ∧
      o.dev = { d with UDP6 := setSlot d.UDP6 (bePort b 40) (o.dev.UDP6 (bePort b 40)) } ∧
      (d.UDP6 (bePort b 40) ≤ 2 → (o.verdict, o.dev.UDP6 (bePort b 40), o.timers) =
        ((udpMachineSpec (d.UDP6 (bePort b 40)) (env.ipLookup (b.bytes 24 16)) m
            (bePort b 42 == 53)).1,
         (udpMachineSpec (d.UDP6 (bePort b 40)) (env.ipLookup (b.bytes 24 16)) m
            (bePort b 42 == 53)).2.1,
         resetOf (udpMachineSpec (d.UDP6 (bePort b 40)) (env.ipLookup (b.bytes 24 16)) m
            (bePort b 42 == 53)).2.2 Table.UDP6 (bePort b 40))) ∧
      (2 < d.UDP6 (bePort b 40) → o = ⟨false, d, []⟩) := by
  obtain ⟨m, hm⟩ := CheckUDP6_isSome env b hcap (by omega)
  by_cases hslot : d.UDP6 (bePort b 40) ≤ 2
  · exact ⟨_, m, hm, CheckIPv6_udp env d b hcap hlen hproto hslot m hm,
      by simp [setSlot_same], fun _ => by simp [setSlot_same], fun h => by omega⟩
  · exact ⟨_, m, hm, CheckIPv6_udp_stale env d b hcap (by omega) hproto (by omega),
      by simp [setSlot_self], fun h => by omega, fun _ => rfl⟩

theorem tcpMachineSpec_unknown_divert (syn fin ip m : Bool)
    (h : (tcpMachineSpec 0 syn fin ip m).2 = 2) : syn = true := by
  cases syn
  · simp [tcpMachineSpec, UNKNOWN, ALLOW] at h
  · rfl

/-! ## C1: the TCP state machine -/

/-- C1: for every table state with the slot of the packet's source port in one
of the three states, and every IPv4 (resp. IPv6) TCP packet, `CheckIPv4`
(resp. `CheckIPv6`) returns, and its verdict and the slot `TCP[p]` (resp.
`TCP6[p]`) after the call are those the TCP state machine of the specification
gives for the slot before the call, the SYN and FIN flags, the IP filter's
answer on the destination IP and the result of the OS-table app match. -/
theorem C1_tcp_state_machine (env : Env) (d : Device) (b : Slice)
    (hcap : b.len ≤ b.mem.length) :
    (34 ≤ b.len → (b.byte 9).val = ProtocolTCP → d.TCP (bePort b 20) ≤ DIVERT →
      ∃ o m, CheckTCP4 env b = some m ∧ CheckIPv4 env d b = some o ∧
        (o.verdict, o.dev.TCP (bePort b 20)) =
          tcpMachineSpec (d.TCP (bePort b 20)) (hasFlag b 20 SYN) (hasFlag b 20 FIN)
            (env.ipLookup (b.bytes 16 4)) m) ∧
    (54 ≤ b.len → (b.byte 6).val = ProtocolTCP → d.TCP6 (bePort b 40) ≤ DIVERT →
      ∃ o m, CheckTCP6 env b = some m ∧ CheckIPv6 env d b = some o ∧
        (o.verdict, o.dev.TCP6 (bePort b 40)) =
          tcpMachineSpec (d.TCP6 (bePort b 40)) (hasFlag b 40 SYN) (hasFlag b 40 FIN)
            (env.ipLookup (b.bytes 24 16)) m) := by
  refine ⟨fun hlen hproto hslot => ?_, fun hlen hproto hslot => ?_⟩
  · obtain ⟨m, hm⟩ := CheckTCP4_isSome env b hcap (by omega)
    exact ⟨_, m, hm, CheckIPv4_tcp env d b hcap hlen hproto hslot m hm, by simp [setSlot_same]⟩
  · obtain ⟨m, hm⟩ := CheckTCP6_isSome env b hcap (by omega)
    exact ⟨_, m, hm, CheckIPv6_tcp env d b hcap hlen hproto hslot m hm, by simp [setSlot_same]⟩

/-- C1 at the SYN packets of the scenarios, with all slots `UNKNOWN`. -/
theorem C1_tcp_state_machine_witness :
    (∃ o m, CheckTCP4 exEnv (pktOf exSyn4) = some m ∧
        CheckIPv4 exEnv exDev (pktOf exSyn4) = some o ∧
        (o.verdict, o.dev.TCP (bePort (pktOf exSyn4) 20)) =
          tcpMachineSpec (exDev.TCP (bePort (pktOf exSyn4) 20)) (hasFlag (pktOf exSyn4) 20 SYN)
            (hasFlag (pktOf exSyn4) 20 FIN) (exEnv.ipLookup ((pktOf exSyn4).bytes 16 4)) m) ∧
    (∃ o m, CheckTCP6 exEnvOwned (pktOf exSyn6) = some m ∧
        CheckIPv6 exEnvOwned exDev (pktOf exSyn6) = some o ∧
        (o.verdict, o.dev.TCP6 (bePort (pktOf exSyn6) 40)) =
          tcpMachineSpec (exDev.TCP6 (bePort (pktOf exSyn6) 40)) (hasFlag (pktOf exSyn6) 40 SYN)
            (hasFlag (pktOf exSyn6) 40 FIN)
            (exEnvOwned.ipLookup ((pktOf exSyn6).bytes 24 16)) m) :=
  ⟨(C1_tcp_state_machine exEnv exDev (pktOf exSyn4) (by decide)).1
      (by decide) (by decide) (by decide),
   (C1_tcp_state_machine exEnvOwned exDev (pktOf exSyn6) (by decide)).2
      (by decide) (by decide) (by decide)⟩

/-! ## C2: the UDP state machine -/

/-- C2: for every table state with the slot of the packet's source port in one
of the three states, and every IPv4 (resp. IPv6) UDP packet, `CheckIPv4`
(resp. `CheckIPv6`) returns, and its verdict, the slot `UDP[p]` (resp.
`UDP6[p]`) after the call and the timers it starts are those of the UDP state
machine of the specification: one 60-second timer when the machine schedules a
reset, none otherwise; and every timer started, when it fires on any tables,
sets slot `p` of that same table to `UNKNOWN` and changes nothing else. -/
theorem C2_udp_state_machine (env : Env) (d : Device) (b : Slice)
    (hcap : b.len ≤ b.mem.length) :
    (24 ≤ b.len → (b.byte 9).val = ProtocolUDP → d.UDP (bePort b 20) ≤ DIVERT →
      ∃ o m, CheckUDP4 env b = some m ∧ CheckIPv4 env d b = some o ∧
        (o.verdict, o.dev.UDP (bePort b 20), decide (o.timers ≠ [])) =
          udpMachineSpec (d.UDP (bePort b 20)) (env.ipLookup (b.bytes 16 4)) m
            (bePort b 22 == 53) ∧
        o.timers.length ≤ 1 ∧
        ∀ t ∈ o.timers, t.delay = 60 ∧
          ∀ d1 : Device, t.fire d1 = { d1 with UDP := setSlot d1.UDP (bePort b 20) UNKNOWN }) ∧
    (44 ≤ b.len → (b.byte 6).val = ProtocolUDP → d.UDP6 (bePort b 40) ≤ DIVERT →
      ∃ o m, CheckUDP6 env b = some m ∧ CheckIPv6 env d b = some o ∧
        (o.verdict, o.dev.UDP6 (bePort b 40), decide (o.timers ≠ [])) =
          udpMachineSpec (d.UDP6 (bePort b 40)) (env.ipLookup (b.bytes 24 16)) m
            (bePort b 42 == 53) ∧
        o.timers.length ≤ 1 ∧
        ∀ t ∈ o.timers, t.delay = 60 ∧
          ∀ d1 : Device, t.fire d1 = { d1 with UDP6 := setSlot d1.UDP6 (bePort b 40) UNKNOWN }) := by
  refine ⟨fun hlen hproto hslot => ?_, fun hlen hproto hslot => ?_⟩
  · obtain ⟨m, hm⟩ := CheckUDP4_isSome env b hcap (by omega)
    refine ⟨_, m, hm, CheckIPv4_udp env d b hcap hlen hproto hslot m hm, ?_, ?_, ?_⟩
    · simp only [setSlot_same]
      generalize udpMachineSpec _ _ _ _ = x
      rcases x with ⟨v, s, sch⟩
      cases sch <;> simp [resetOf]
    · simp only [resetOf]
      split <;> simp
    · intro t ht
      simp only [resetOf] at ht
      split at ht
      · simp only [List.mem_singleton] at ht
        subst ht
        exact ⟨rfl, fun d1 => rfl⟩
      · simp at ht
  · obtain ⟨m, hm⟩ := CheckUDP6_isSome env b hcap (by omega)
    refine ⟨_, m, hm, CheckIPv6_udp env d b hcap hlen hproto hslot m hm, ?_, ?_, ?_⟩
    · simp only [setSlot_same]
      generalize udpMachineSpec _ _ _ _ = x
      rcases x with ⟨v, s, sch⟩
      cases sch <;> simp [resetOf]
    · simp only [resetOf]
      split <;> simp
    · intro t ht
      simp only [resetOf] at ht
      split at ht
      · simp only [List.mem_singleton] at ht
        subst ht
        exact ⟨rfl, fun d1 => rfl⟩
      · simp at ht

/-- C2 at the UDP packets of the scenarios, with all slots `UNKNOWN`. -/
theorem C2_udp_state_machine_witness :
    (∃ o m, CheckUDP4 exEnv (pktOf exDns4) = some m ∧
        CheckIPv4 exEnv exDev (pktOf exDns4) = some o ∧
        (o.verdict, o.dev.UDP (bePort (pktOf exDns4) 20), decide (o.timers ≠ [])) =
          udpMachineSpec (exDev.UDP (bePort (pktOf exDns4) 20))
            (exEnv.ipLookup ((pktOf exDns4).bytes 16 4)) m (bePort (pktOf exDns4) 22 == 53) ∧
        o.timers.length ≤ 1 ∧
        ∀ t ∈ o.timers, t.delay = 60 ∧
          ∀ d1 : Device, t.fire d1 =
            { d1 with UDP := setSlot d1.UDP (bePort (pktOf exDns4) 20) UNKNOWN }) ∧
    (∃ o m, CheckUDP6 exEnv (pktOf exUdp6) = some m ∧
        CheckIPv6 exEnv exDev (pktOf exUdp6) = some o ∧
        (o.verdict, o.dev.UDP6 (bePort (pktOf exUdp6) 40), decide (o.timers ≠ [])) =
          udpMachineSpec (exDev.UDP6 (bePort (pktOf exUdp6) 40))
            (exEnv.ipLookup ((pktOf exUdp6).bytes 24 16)) m (bePort (pktOf exUdp6) 42 == 53) ∧
        o.timers.length ≤ 1 ∧
        ∀ t ∈ o.timers, t.delay = 60 ∧
          ∀ d1 : Device, t.fire d1 =
            { d1 with UDP6 := setSlot d1.UDP6 (bePort (pktOf exUdp6) 40) UNKNOWN }) :=
  ⟨(C2_udp_state_machine exEnv exDev (pktOf exDns4) (by decide)).1
      (by decide) (by decide) (by decide),
   (C2_udp_state_machine exEnv exDev (pktOf exUdp6) (by decide)).2
      (by decide) (by decide) (by decide)⟩

/-! ## C3: which packets take a slot out of `UNKNOWN` -/

theorem frame_TCP (d d1 : Device) (p v : Nat) (h : d1 = { d with TCP := setSlot d.TCP p v }) :
    d1.UDP = d.UDP ∧ d1.TCP6 = d.TCP6 ∧ d1.UDP6 = d.UDP6 ∧ ∀ q, q ≠ p → d1.TCP q = d.TCP q := by
  subst h
  exact ⟨rfl, rfl, rfl, fun q hq => setSlot_other _ _ _ _ hq⟩

theorem frame_UDP (d d1 : Device) (p v : Nat) (h : d1 = { d with UDP := setSlot d.UDP p v }) :
    d1.TCP = d.TCP ∧ d1.TCP6 = d.TCP6 ∧ d1.UDP6 = d.UDP6 ∧ ∀ q, q ≠ p → d1.UDP q = d.UDP q := by
  subst h
  exact ⟨rfl, rfl, rfl, fun q hq => setSlot_other _ _ _ _ hq⟩

theorem frame_TCP6 (d d1 : Device) (p v : Nat) (h : d1 = { d with TCP6 := setSlot d.TCP6 p v }) :
    d1.TCP = d.TCP ∧ d1.UDP = d.UDP ∧ d1.UDP6 = d.UDP6 ∧ ∀ q, q ≠ p → d1.TCP6 q = d.TCP6 q := by
  subst h
  exact ⟨rfl, rfl, rfl, fun q hq => setSlot_other _ _ _ _ hq⟩

theorem frame_UDP6 (d d1 : Device) (p v : Nat) (h : d1 = { d with UDP6 := setSlot d.UDP6 p v }) :
    d1.TCP = d.TCP ∧ d1.UDP = d.UDP ∧ d1.TCP6 = d.TCP6 ∧ ∀ q, q ≠ p → d1.UDP6 q = d.UDP6 q := by
  subst h
  exact ⟨rfl, rfl, rfl, fun q hq => setSlot_other _ _ _ _ hq⟩

/-- If only slot `p` of one table may differ between `d` and `d1`, a slot that
goes from `UNKNOWN` to a different value is slot `p` of that table. -/
theorem becomes_at (t t1 u u1 x x1 y y1 : Nat → Nat) (p v : Nat) (hv : v ≠ UNKNOWN)
    (hu : u1 = u) (hx : x1 = x) (hy : y1 = y) (ht : ∀ q, q ≠ p → t1 q = t q)
    (h : ∃ q, (t q = UNKNOWN ∧ t1 q = v) ∨ (u q = UNKNOWN ∧ u1 q = v)
      ∨ (x q = UNKNOWN ∧ x1 q = v) ∨ (y q = UNKNOWN ∧ y1 q = v)) :
    t p = UNKNOWN ∧ t1 p = v := by
  obtain ⟨q, h | h | h | h⟩ := h
  · by_cases hq : q = p
    · subst hq; exact h
    · rw [ht q hq] at h
      exact absurd (h.1.symm.trans h.2).symm hv
  · rw [hu] at h; exact absurd (h.1.symm.trans h.2).symm hv
  · rw [hx] at h; exact absurd (h.1.symm.trans h.2).symm hv
  · rw [hy] at h; exact absurd (h.1.symm.trans h.2).symm hv

/-- C3, as stated, fails: an IPv4 TCP packet with ACK only (no SYN) on a slot
that is `UNKNOWN` leaves the slot `ALLOW`. -/
theorem C3_counterexample :
    (CheckIPv4 exEnv exDev (pktOf exAck4)).map
        (fun o => (exDev.TCP 55002, o.dev.TCP 55002)) = some (UNKNOWN, ALLOW) ∧
      ((pktOf exAck4).byte 9).val = ProtocolTCP ∧ hasFlag (pktOf exAck4) 20 SYN = false := by
  decide

/-- C3, amended: if a classify call takes some table slot from `UNKNOWN` to
`DIVERT`, the packet was a TCP packet with the SYN flag set or a UDP packet; if
it takes some slot from `UNKNOWN` to `ALLOW`, the packet was a TCP packet (with
or without SYN) or a UDP packet; a packet of any other protocol leaves all four
tables as they were. -/
theorem C3_unknown_transitions (env : Env) (d : Device) (b : Slice)
    (hcap : b.len ≤ b.mem.length) :
    (20 ≤ b.len → ((b.byte 9).val = ProtocolTCP → 34 ≤ b.len) →
      ((b.byte 9).val = ProtocolUDP → 24 ≤ b.len) →
      ∃ o, CheckIPv4 env d b = some o ∧
        (becomes d o.dev DIVERT →
          ((b.byte 9).val = ProtocolTCP ∧ hasFlag b 20 SYN = true)
            ∨ (b.byte 9).val = ProtocolUDP) ∧
        (becomes d o.dev ALLOW →
          (b.byte 9).val = ProtocolTCP ∨ (b.byte 9).val = ProtocolUDP) ∧
        ((b.byte 9).val ≠ ProtocolTCP → (b.byte 9).val ≠ ProtocolUDP → o.dev = d)) ∧
    (40 ≤ b.len → ((b.byte 6).val = ProtocolTCP → 54 ≤ b.len) →
      ((b.byte 6).val = ProtocolUDP → 44 ≤ b.len) →
      ∃ o, CheckIPv6 env d b = some o ∧
        (becomes d o.dev DIVERT →
          ((b.byte 6).val = ProtocolTCP ∧ hasFlag b 40 SYN = true)
            ∨ (b.byte 6).val = ProtocolUDP) ∧
        (becomes d o.dev ALLOW →
          (b.byte 6).val = ProtocolTCP ∨ (b.byte 6).val = ProtocolUDP) ∧
        ((b.byte 6).val ≠ ProtocolTCP → (b.byte 6).val ≠ ProtocolUDP → o.dev = d)) := by
  have hne : ProtocolTCP ≠ ProtocolUDP := by decide
  refine ⟨fun hlen htl hul => ?_, fun hlen htl hul => ?_⟩
  · by_cases ht : (b.byte 9).val = ProtocolTCP
    · obtain ⟨o, m, _, ho, _, hdev, hspec, hstale⟩ :=
        CheckIPv4_tcp_any env d b hcap (htl ht) ht
      obtain ⟨hU, hT6, hU6, hT⟩ := frame_TCP d o.dev _ _ hdev
      refine ⟨o, ho, fun hb => Or.inl ⟨ht, ?_⟩, fun _ => Or.inl ht, fun h _ => absurd ht h⟩
      obtain ⟨h0, h2⟩ := becomes_at d.TCP o.dev.TCP d.UDP o.dev.UDP d.TCP6 o.dev.TCP6
        d.UDP6 o.dev.UDP6 _ DIVERT (by decide) hU hT6 hU6 hT hb
      have hs := hspec (by rw [h0]; decide)
      rw [h0, h2] at hs
      have h2b := congrArg Prod.snd hs
      exact tcpMachineSpec_unknown_divert _ _ _ _ h2b.symm
    · by_cases hu : (b.byte 9).val = ProtocolUDP
      · obtain ⟨o, m, _, ho, _, _, _⟩ := CheckIPv4_udp_any env d b hcap (hul hu) hu
        exact ⟨o, ho, fun _ => Or.inr hu, fun _ => Or.inr hu, fun _ h => absurd hu h⟩
      · refine ⟨_, CheckIPv4_other env d b hcap (by omega) (by omega) ht hu, ?_, ?_, fun _ _ => rfl⟩
        · rintro ⟨q, h | h | h | h⟩ <;> exact absurd (h.1.symm.trans h.2) (by decide)
        · rintro ⟨q, h | h | h | h⟩ <;> exact absurd (h.1.symm.trans h.2) (by decide)
  · by_cases ht : (b.byte 6).val = ProtocolTCP
    · obtain ⟨o, m, _, ho, _, hdev, hspec, hstale⟩ :=
        CheckIPv6_tcp_any env d b hcap (htl ht) ht
      obtain ⟨hT4, hU, hU6, hT⟩ := frame_TCP6 d o.dev _ _ hdev
      refine ⟨o, ho, fun hb => Or.inl ⟨ht, ?_⟩, fun _ => Or.inl ht, fun h _ => absurd ht h⟩
      obtain ⟨h0, h2⟩ := becomes_at d.TCP6 o.dev.TCP6 d.TCP o.dev.TCP d.UDP o.dev.UDP
        d.UDP6 o.dev.UDP6 _ DIVERT (by decide) hT4 hU hU6 hT
        (by
          obtain ⟨q, h | h | h | h⟩ := hb
          · exact ⟨q, Or.inr (Or.inl h)⟩
          · exact ⟨q, Or.inr (Or.inr (Or.inl h))⟩
          · exact ⟨q, Or.inl h⟩
          · exact ⟨q, Or.inr (Or.inr (Or.inr h))⟩)
      have hs := hspec (by rw [h0]; decide)
      rw [h0, h2] at hs
      have h2b := congrArg Prod.snd hs
      exact tcpMachineSpec_unknown_divert _ _ _ _ h2b.symm
    · by_cases hu : (b.byte 6).val = ProtocolUDP
      · obtain ⟨o, m, _, ho, _, _, _⟩ := CheckIPv6_udp_any env d b hcap (hul hu) hu
        exact ⟨o, ho, fun _ => Or.inr hu, fun _ => Or.inr hu, fun _ h => absurd hu h⟩
      · refine ⟨_, CheckIPv6_other env d b hcap (by omega) (by omega) ht hu, ?_, ?_, fun _ _ => rfl⟩
        · rintro ⟨q, h | h | h | h⟩ <;> exact absurd (h.1.symm.trans h.2) (by decide)
        · rintro ⟨q, h | h | h | h⟩ <;> exact absurd (h.1.symm.trans h.2) (by decide)

/-- C3 (amended) at the ACK-only TCP packets of the examples. -/
theorem C3_unknown_transitions_witness :
    (∃ o, CheckIPv4 exEnv exDev (pktOf exAck4) = some o ∧
        (becomes exDev o.dev DIVERT →
          (((pktOf exAck4).byte 9).val = ProtocolTCP ∧ hasFlag (pktOf exAck4) 20 SYN = true)
            ∨ ((pktOf exAck4).byte 9).val = ProtocolUDP) ∧
        (becomes exDev o.dev ALLOW →
          ((pktOf exAck4).byte 9).val = ProtocolTCP
            ∨ ((pktOf exAck4).byte 9).val = ProtocolUDP) ∧
        (((pktOf exAck4).byte 9).val ≠ ProtocolTCP →
          ((pktOf exAck4).byte 9).val ≠ ProtocolUDP → o.dev = exDev)) ∧
    (∃ o, CheckIPv6 exEnv exDev (pktOf exAck6) = some o ∧
        (becomes exDev o.dev DIVERT →
          (((pktOf exAck6).byte 6).val = ProtocolTCP ∧ hasFlag (pktOf exAck6) 40 SYN = true)
            ∨ ((pktOf exAck6).byte 6).val = ProtocolUDP) ∧
        (becomes exDev o.dev ALLOW →
          ((pktOf exAck6).byte 6).val = ProtocolTCP
            ∨ ((pktOf exAck6).byte 6).val = ProtocolUDP) ∧
        (((pktOf exAck6).byte 6).val ≠ ProtocolTCP →
          ((pktOf exAck6).byte 6).val ≠ ProtocolUDP → o.dev = exDev)) :=
  ⟨(C3_unknown_transitions exEnv exDev (pktOf exAck4) (by decide)).1
      (by decide) (by decide) (by decide),
   (C3_unknown_transitions exEnv exDev (pktOf exAck6) (by decide)).2
      (by decide) (by decide) (by decide)⟩

/-! ## C4: DNS over UDP on an `UNKNOWN` slot -/

/-- C4, as stated, fails: a UDP packet to port 53 of an address the IP filter
holds, on a slot that is `UNKNOWN`, leaves the slot `DIVERT`. -/
theorem C4_counterexample :
    (CheckIPv4 exEnv exDev (pktOf exDnsFiltered4)).map
        (fun o => (o.verdict, exDev.UDP 55003, o.dev.UDP 55003)) = some (true, UNKNOWN, DIVERT) ∧
      ((pktOf exDnsFiltered4).byte 9).val = ProtocolUDP ∧
      bePort (pktOf exDnsFiltered4) 20 = 55003 ∧ bePort (pktOf exDnsFiltered4) 22 = 53 := by
  decide

/-- C4, amended: for every UDP packet (IPv4 or IPv6) whose destination port is
53 and whose source-port slot is `UNKNOWN`, and for every IP filter, app filter
and OS-table snapshot, the classify verdict is true; the slot is still
`UNKNOWN` after the call when neither the IP filter matches the destination IP
nor the OS-table app match succeeds, and is `DIVERT` otherwise. -/
theorem C4_dns_unknown (env : Env) (d : Device) (b : Slice) (hcap : b.len ≤ b.mem.length) :
    (24 ≤ b.len → (b.byte 9).val = ProtocolUDP → bePort b 22 = 53 →
      d.UDP (bePort b 20) = UNKNOWN →
      ∃ o m, CheckUDP4 env b = some m ∧ CheckIPv4 env d b = some o ∧ o.verdict = true ∧
        o.dev.UDP (bePort b 20) =
          if env.ipLookup (b.bytes 16 4) = true ∨ m = true then DIVERT else UNKNOWN) ∧
    (44 ≤ b.len → (b.byte 6).val = ProtocolUDP → bePort b 42 = 53 →
      d.UDP6 (bePort b 40) = UNKNOWN →
      ∃ o m, CheckUDP6 env b = some m ∧ CheckIPv6 env d b = some o ∧ o.verdict = true ∧
        o.dev.UDP6 (bePort b 40) =
          if env.ipLookup (b.bytes 24 16) = true ∨ m = true then DIVERT else UNKNOWN) := by
  refine ⟨fun hlen hproto hdns hslot => ?_, fun hlen hproto hdns hslot => ?_⟩
  · obtain ⟨o, m, hm, ho, _, hspec, _⟩ := CheckIPv4_udp_any env d b hcap hlen hproto
    have hs := hspec (by rw [hslot]; decide)
    rw [hslot, hdns] at hs
    simp only [Prod.mk.injEq] at hs
    refine ⟨o, m, hm, ho, ?_, ?_⟩
    · rw [hs.1]
      cases env.ipLookup (b.bytes 16 4) <;> cases m <;> decide
    · rw [hs.2.1]
      cases env.ipLookup (b.bytes 16 4) <;> cases m <;> decide
  · obtain ⟨o, m, hm, ho, _, hspec, _⟩ := CheckIPv6_udp_any env d b hcap hlen hproto
    have hs := hspec (by rw [hslot]; decide)
    rw [hslot, hdns] at hs
    simp only [Prod.mk.injEq] at hs
    refine ⟨o, m, hm, ho, ?_, ?_⟩
    · rw [hs.1]
      cases env.ipLookup (b.bytes 24 16) <;> cases m <;> decide
    · rw [hs.2.1]
      cases env.ipLookup (b.bytes 24 16) <;> cases m <;> decide

/-- C4 (amended) at the DNS packets of the examples. -/
theorem C4_dns_unknown_witness :
    (∃ o m, CheckUDP4 exEnv (pktOf exDns4) = some m ∧
        CheckIPv4 exEnv exDev (pktOf exDns4) = some o ∧ o.verdict = true ∧
        o.dev.UDP (bePort (pktOf exDns4) 20) =
          if exEnv.ipLookup ((pktOf exDns4).bytes 16 4) = true ∨ m = true
          then DIVERT else UNKNOWN) ∧
    (∃ o m, CheckUDP6 exEnv (pktOf exDns6) = some m ∧
        CheckIPv6 exEnv exDev (pktOf exDns6) = some o ∧ o.verdict = true ∧
        o.dev.UDP6 (bePort (pktOf exDns6) 40) =
          if exEnv.ipLookup ((pktOf exDns6).bytes 24 16) = true ∨ m = true
          then DIVERT else UNKNOWN) :=
  ⟨(C4_dns_unknown exEnv exDev (pktOf exDns4) (by decide)).1
      (by decide) (by decide) (by decide) (by decide),
   (C4_dns_unknown exEnv exDev (pktOf exDns6) (by decide)).2
      (by decide) (by decide) (by decide) (by decide)⟩

/-! ## C5: protocols other than TCP and UDP -/

/-- C5: for a packet whose protocol is neither TCP nor UDP the classify call
returns the IP filter's lookup of the destination IP (bytes 16..19 for IPv4,
24..39 for IPv6), leaves all four tables unchanged and starts no timer; hence
two runs with the same IP filter on packets with the same destination IP give
the same verdict, whatever the tables, the app filter, the OS tables and the
rest of the packets are. -/
theorem C5_other_protocols (env1 env2 : Env) (d1 d2 : Device) (b1 b2 : Slice)
    (hcap1 : b1.len ≤ b1.mem.length) (hcap2 : b2.len ≤ b2.mem.length)
    (hip : env1.ipLookup = env2.ipLookup) :
    (20 ≤ b1.len → 20 ≤ b2.len →
      (b1.byte 9).val ≠ ProtocolTCP → (b1.byte 9).val ≠ ProtocolUDP →
      (b2.byte 9).val ≠ ProtocolTCP → (b2.byte 9).val ≠ ProtocolUDP →
      CheckIPv4 env1 d1 b1 = some ⟨env1.ipLookup (b1.bytes 16 4), d1, []⟩ ∧
      (b1.bytes 16 4 = b2.bytes 16 4 →
        (CheckIPv4 env1 d1 b1).map (fun o => o.verdict)
          = (CheckIPv4 env2 d2 b2).map (fun o => o.verdict))) ∧
    (40 ≤ b1.len → 40 ≤ b2.len →
      (b1.byte 6).val ≠ ProtocolTCP → (b1.byte 6).val ≠ ProtocolUDP →
      (b2.byte 6).val ≠ ProtocolTCP → (b2.byte 6).val ≠ ProtocolUDP →
      CheckIPv6 env1 d1 b1 = some ⟨env1.ipLookup (b1.bytes 24 16), d1, []⟩ ∧
      (b1.bytes 24 16 = b2.bytes 24 16 →
        (CheckIPv6 env1 d1 b1).map (fun o => o.verdict)
          = (CheckIPv6 env2 d2 b2).map (fun o => o.verdict))) := by
  refine ⟨fun h1 h2 ht1 hu1 ht2 hu2 => ?_, fun h1 h2 ht1 hu1 ht2 hu2 => ?_⟩
  · have e1 := CheckIPv4_other env1 d1 b1 hcap1 (by omega) (by omega) ht1 hu1
    have e2 := CheckIPv4_other env2 d2 b2 hcap2 (by omega) (by omega) ht2 hu2
    refine ⟨e1, fun hdst => ?_⟩
    rw [e1, e2, hip, hdst]
    rfl
  · have e1 := CheckIPv6_other env1 d1 b1 hcap1 (by omega) (by omega) ht1 hu1
    have e2 := CheckIPv6_other env2 d2 b2 hcap2 (by omega) (by omega) ht2 hu2
    refine ⟨e1, fun hdst => ?_⟩
    rw [e1, e2, hip, hdst]
    rfl

/-- C5 at two packets of the examples with the same destination: the same
filter, different tables, OS tables, protocols and sources. -/
theorem C5_other_protocols_witness :
    (CheckIPv4 exEnv exDev (pktOf exIcmp4)
        = some ⟨exEnv.ipLookup ((pktOf exIcmp4).bytes 16 4), exDev, []⟩ ∧
      (CheckIPv4 exEnv exDev (pktOf exIcmp4)).map (fun o => o.verdict)
          = (CheckIPv4 exEnvOwned exDevDivert (pktOf exIgmp4)).map (fun o => o.verdict)) ∧
    (CheckIPv6 exEnv exDev (pktOf exIcmp6)
        = some ⟨exEnv.ipLookup ((pktOf exIcmp6).bytes 24 16), exDev, []⟩ ∧
      (CheckIPv6 exEnv exDev (pktOf exIcmp6)).map (fun o => o.verdict)
          = (CheckIPv6 exEnvOwned exDevDivert (pktOf exNoNext6)).map (fun o => o.verdict)) :=
  have h4 := (C5_other_protocols exEnv exEnvOwned exDev exDevDivert (pktOf exIcmp4)
      (pktOf exIgmp4) (by decide) (by decide) rfl).1 (by decide) (by decide) (by decide)
      (by decide) (by decide) (by decide)
  have h6 := (C5_other_protocols exEnv exEnvOwned exDev exDevDivert (pktOf exIcmp6)
      (pktOf exNoNext6) (by decide) (by decide) rfl).2 (by decide) (by decide) (by decide)
      (by decide) (by decide) (by decide)
  ⟨⟨h4.1, h4.2 (by decide)⟩, ⟨h6.1, h6.2 (by decide)⟩⟩

/-! ## C6: two FIN packets in a row -/

/-- C6, as stated, fails: with `TCP[55001]` in `DIVERT`, a first FIN packet on
source port 55001 leaves the slot `UNKNOWN`, and a second FIN packet (FIN set,
SYN not set) on the same port leaves it `ALLOW`. -/
theorem C6_counterexample :
    exDevDivert.TCP 55001 = DIVERT ∧ bePort (pktOf exFin4) 20 = 55001 ∧
      hasFlag (pktOf exFin4) 20 FIN = true ∧ hasFlag (pktOf exFin4) 20 SYN = false ∧
      (CheckIPv4 exEnv exDevDivert (pktOf exFin4)).bind (fun o1 =>
        (CheckIPv4 exEnv o1.dev (pktOf exFin4)).map (fun o2 =>
          (o1.dev.TCP 55001, o2.dev.TCP 55001))) = some (UNKNOWN, ALLOW) := by
  decide

/-- C6, amended: for every TCP slot that is in `ALLOW` or `DIVERT`,
classifying a FIN packet on that source port leaves the slot `UNKNOWN`, and
classifying a second FIN packet (FIN set, SYN not set) on the same source port
right after it gives the verdict false and leaves the slot `ALLOW`. -/
theorem C6_double_fin (env1 env2 : Env) (d : Device) (b1 b2 : Slice)
    (hcap1 : b1.len ≤ b1.mem.length) (hcap2 : b2.len ≤ b2.mem.length) :
    (34 ≤ b1.len → 34 ≤ b2.len →
      (b1.byte 9).val = ProtocolTCP → (b2.byte 9).val = ProtocolTCP →
      bePort b2 20 = bePort b1 20 →
      hasFlag b1 20 FIN = true → hasFlag b2 20 FIN = true → hasFlag b2 20 SYN = false →
      (d.TCP (bePort b1 20) = ALLOW ∨ d.TCP (bePort b1 20) = DIVERT) →
      ∃ o1 o2, CheckIPv4 env1 d b1 = some o1 ∧ o1.dev.TCP (bePort b1 20) = UNKNOWN ∧
        CheckIPv4 env2 o1.dev b2 = some o2 ∧ o2.verdict = false ∧
        o2.dev.TCP (bePort b1 20) = ALLOW) ∧
    (54 ≤ b1.len → 54 ≤ b2.len →
      (b1.byte 6).val = ProtocolTCP → (b2.byte 6).val = ProtocolTCP →
      bePort b2 40 = bePort b1 40 →
      hasFlag b1 40 FIN = true → hasFlag b2 40 FIN = true → hasFlag b2 40 SYN = false →
      (d.TCP6 (bePort b1 40) = ALLOW ∨ d.TCP6 (bePort b1 40) = DIVERT) →
      ∃ o1 o2, CheckIPv6 env1 d b1 = some o1 ∧ o1.dev.TCP6 (bePort b1 40) = UNKNOWN ∧
        CheckIPv6 env2 o1.dev b2 = some o2 ∧ o2.verdict = false ∧
        o2.dev.TCP6 (bePort b1 40) = ALLOW) := by
  refine ⟨fun hl1 hl2 hp1 hp2 hport hf1 hf2 hs2 hslot => ?_,
    fun hl1 hl2 hp1 hp2 hport hf1 hf2 hs2 hslot => ?_⟩
  · obtain ⟨o1, m1, _, ho1, _, _, hspec1, _⟩ := CheckIPv4_tcp_any env1 d b1 hcap1 hl1 hp1
    have hs1 := hspec1 (by rcases hslot with h | h <;> rw [h] <;> decide)
    have h1 : o1.dev.TCP (bePort b1 20) = UNKNOWN := by
      have := congrArg Prod.snd hs1
      rcases hslot with h | h <;> rw [h, hf1] at this <;> exact this
    obtain ⟨o2, m2, _, ho2, _, _, hspec2, _⟩ := CheckIPv4_tcp_any env2 o1.dev b2 hcap2 hl2 hp2
    rw [hport] at hspec2
    have hs2b := hspec2 (by rw [h1]; decide)
    rw [h1, hs2] at hs2b
    exact ⟨o1, o2, ho1, h1, ho2, congrArg Prod.fst hs2b, congrArg Prod.snd hs2b⟩
  · obtain ⟨o1, m1, _, ho1, _, _, hspec1, _⟩ := CheckIPv6_tcp_any env1 d b1 hcap1 hl1 hp1
    have hs1 := hspec1 (by rcases hslot with h | h <;> rw [h] <;> decide)
    have h1 : o1.dev.TCP6 (bePort b1 40) = UNKNOWN := by
      have := congrArg Prod.snd hs1
      rcases hslot with h | h <;> rw [h, hf1] at this <;> exact this
    obtain ⟨o2, m2, _, ho2, _, _, hspec2, _⟩ := CheckIPv6_tcp_any env2 o1.dev b2 hcap2 hl2 hp2
    rw [hport] at hspec2
    have hs2b := hspec2 (by rw [h1]; decide)
    rw [h1, hs2] at hs2b
    exact ⟨o1, o2, ho1, h1, ho2, congrArg Prod.fst hs2b, congrArg Prod.snd hs2b⟩

/-- C6 (amended) at the FIN packets of the examples, from `DIVERT`. -/
theorem C6_double_fin_witness :
    (∃ o1 o2, CheckIPv4 exEnv exDevDivert (pktOf exFin4) = some o1 ∧
        o1.dev.TCP (bePort (pktOf exFin4) 20) = UNKNOWN ∧
        CheckIPv4 exEnvOwned o1.dev (pktOf exFin4) = some o2 ∧ o2.verdict = false ∧
        o2.dev.TCP (bePort (pktOf exFin4) 20) = ALLOW) ∧
    (∃ o1 o2, CheckIPv6 exEnv exDevDivert (pktOf exFin6) = some o1 ∧
        o1.dev.TCP6 (bePort (pktOf exFin6) 40) = UNKNOWN ∧
        CheckIPv6 exEnvOwned o1.dev (pktOf exFin6) = some o2 ∧ o2.verdict = false ∧
        o2.dev.TCP6 (bePort (pktOf exFin6) 40) = ALLOW) :=
  ⟨(C6_double_fin exEnv exEnvOwned exDevDivert (pktOf exFin4) (pktOf exFin4)
      (by decide) (by decide)).1 (by decide) (by decide) (by decide) (by decide) rfl
      (by decide) (by decide) (by decide) (by decide),
   (C6_double_fin exEnv exEnvOwned exDevDivert (pktOf exFin6) (pktOf exFin6)
      (by decide) (by decide)).2 (by decide) (by decide) (by decide) (by decide) rfl
      (by decide) (by decide) (by decide) (by decide)⟩

/-! ## C7: at most one slot changes -/

/-- C7: a classify call on a TCP or UDP packet returns and changes at most the
entry whose index is the packet's source port, read big-endian from the first
two bytes of the transport header (always below 65536), in the one table of
the packet's family and protocol: the other three tables and every other entry
of that table are unchanged. -/
theorem C7_single_slot (env : Env) (d : Device) (b : Slice) (hcap : b.len ≤ b.mem.length) :
    (34 ≤ b.len → (b.byte 9).val = ProtocolTCP →
      ∃ o, CheckIPv4 env d b = some o ∧ bePort b 20 < 65536 ∧
        o.dev.UDP = d.UDP ∧ o.dev.TCP6 = d.TCP6 ∧ o.dev.UDP6 = d.UDP6 ∧
        ∀ q, q ≠ bePort b 20 → o.dev.TCP q = d.TCP q) ∧
    (24 ≤ b.len → (b.byte 9).val = ProtocolUDP →
      ∃ o, CheckIPv4 env d b = some o ∧ bePort b 20 < 65536 ∧
        o.dev.TCP = d.TCP ∧ o.dev.TCP6 = d.TCP6 ∧ o.dev.UDP6 = d.UDP6 ∧
        ∀ q, q ≠ bePort b 20 → o.dev.UDP q = d.UDP q) ∧
    (54 ≤ b.len → (b.byte 6).val = ProtocolTCP →
      ∃ o, CheckIPv6 env d b = some o ∧ bePort b 40 < 65536 ∧
        o.dev.TCP = d.TCP ∧ o.dev.UDP = d.UDP ∧ o.dev.UDP6 = d.UDP6 ∧
        ∀ q, q ≠ bePort b 40 → o.dev.TCP6 q = d.TCP6 q) ∧
    (44 ≤ b.len → (b.byte 6).val = ProtocolUDP →
      ∃ o, CheckIPv6 env d b = some o ∧ bePort b 40 < 65536 ∧
        o.dev.TCP = d.TCP ∧ o.dev.UDP = d.UDP ∧ o.dev.TCP6 = d.TCP6 ∧
        ∀ q, q ≠ bePort b 40 → o.dev.UDP6 q = d.UDP6 q) := by
  refine ⟨fun hlen hp => ?_, fun hlen hp => ?_, fun hlen hp => ?_, fun hlen hp => ?_⟩
  · obtain ⟨o, m, _, ho, _, hdev, _, _⟩ := CheckIPv4_tcp_any env d b hcap hlen hp
    exact ⟨o, ho, bePort_lt b 20, frame_TCP d o.dev _ _ hdev⟩
  · obtain ⟨o, m, _, ho, hdev, _, _⟩ := CheckIPv4_udp_any env d b hcap hlen hp
    exact ⟨o, ho, bePort_lt b 20, frame_UDP d o.dev _ _ hdev⟩
  · obtain ⟨o, m, _, ho, _, hdev, _, _⟩ := CheckIPv6_tcp_any env d b hcap hlen hp
    exact ⟨o, ho, bePort_lt b 40, frame_TCP6 d o.dev _ _ hdev⟩
  · obtain ⟨o, m, _, ho, hdev, _, _⟩ := CheckIPv6_udp_any env d b hcap hlen hp
    exact ⟨o, ho, bePort_lt b 40, frame_UDP6 d o.dev _ _ hdev⟩

/-- C7 at the TCP and UDP packets of the examples. -/
theorem C7_single_slot_witness :
    (∃ o, CheckIPv4 exEnv exDev (pktOf exSyn4) = some o ∧ bePort (pktOf exSyn4) 20 < 65536 ∧
        o.dev.UDP = exDev.UDP ∧ o.dev.TCP6 = exDev.TCP6 ∧ o.dev.UDP6 = exDev.UDP6 ∧
        ∀ q, q ≠ bePort (pktOf exSyn4) 20 → o.dev.TCP q = exDev.TCP q) ∧
    (∃ o, CheckIPv4 exEnv exDev (pktOf exDns4) = some o ∧ bePort (pktOf exDns4) 20 < 65536 ∧
        o.dev.TCP = exDev.TCP ∧ o.dev.TCP6 = exDev.TCP6 ∧ o.dev.UDP6 = exDev.UDP6 ∧
        ∀ q, q ≠ bePort (pktOf exDns4) 20 → o.dev.UDP q = exDev.UDP q) ∧
    (∃ o, CheckIPv6 exEnv exDev (pktOf exSyn6) = some o ∧ bePort (pktOf exSyn6) 40 < 65536 ∧
        o.dev.TCP = exDev.TCP ∧ o.dev.UDP = exDev.UDP ∧ o.dev.UDP6 = exDev.UDP6 ∧
        ∀ q, q ≠ bePort (pktOf exSyn6) 40 → o.dev.TCP6 q = exDev.TCP6 q) ∧
    (∃ o, CheckIPv6 exEnv exDev (pktOf exUdp6) = some o ∧ bePort (pktOf exUdp6) 40 < 65536 ∧
        o.dev.TCP = exDev.TCP ∧ o.dev.UDP = exDev.UDP ∧ o.dev.TCP6 = exDev.TCP6 ∧
        ∀ q, q ≠ bePort (pktOf exUdp6) 40 → o.dev.UDP6 q = exDev.UDP6 q) :=
  ⟨(C7_single_slot exEnv exDev (pktOf exSyn4) (by decide)).1 (by decide) (by decide),
   (C7_single_slot exEnv exDev (pktOf exDns4) (by decide)).2.1 (by decide) (by decide),
   (C7_single_slot exEnv exDev (pktOf exSyn6) (by decide)).2.2.1 (by decide) (by decide),
   (C7_single_slot exEnv exDev (pktOf exUdp6) (by decide)).2.2.2 (by decide) (by decide)⟩

/-! ## C8: the OS-table matchers -/

/-- C8: for every packet long enough to hold the bytes read and every
OS-table snapshot, `CheckTCP4`, `CheckUDP4` and `CheckTCP6` return the app
filter's verdict on the owning pid of the first record whose local port equals
the two source-port bytes read in host order and whose local address equals
the packet's source address (bytes 12..15, resp. 8..23) or, for `CheckUDP4`
only, is `0.0.0.0`; they return false when no record matches, for an empty
snapshot, and (for every packet) when the snapshot cannot be taken. -/
theorem C8_os_table_match (env : Env) (b : Slice) (hcap : b.len ≤ b.mem.length) :
    (22 ≤ b.len → CheckTCP4 env b = some (match env.tcpTable with
      | none => false
      | some rs => osMatchSpec4 env.appLookup rs (hostPort b 20) (srcAddr4 b) false)) ∧
    (22 ≤ b.len → CheckUDP4 env b = some (match env.udpTable with
      | none => false
      | some rs => osMatchSpec4 env.appLookup rs (hostPort b 20) (srcAddr4 b) true)) ∧
    (42 ≤ b.len → CheckTCP6 env b = some (match env.tcp6Table with
      | none => false
      | some rs => osMatchSpec6 env.appLookup rs (hostPort b 40) (srcAddr6 b) false)) ∧
    (22 ≤ b.len → env.tcpTable = some [] → CheckTCP4 env b = some false) ∧
    (22 ≤ b.len → env.udpTable = some [] → CheckUDP4 env b = some false) ∧
    (42 ≤ b.len → env.tcp6Table = some [] → CheckTCP6 env b = some false) ∧
    (env.tcpTable = none → CheckTCP4 env b = some false) ∧
    (env.udpTable = none → CheckUDP4 env b = some false) ∧
    (env.tcp6Table = none → CheckTCP6 env b = some false) := by
  have t4 : 22 ≤ b.len → CheckTCP4 env b = some (match env.tcpTable with
      | none => false
      | some rs => osMatchSpec4 env.appLookup rs (hostPort b 20) (srcAddr4 b) false) := by
    intro hlen
    unfold CheckTCP4
    cases env.tcpTable with
    | none => rfl
    | some rs =>
      simp only [ipv4HeaderLen, Slice.idx_eq b 20 hcap (by omega),
        Slice.idx_eq b 21 hcap (by omega)]
      exact scanTCP4_spec env b _ rs (by omega) (by omega)
  have u4 : 22 ≤ b.len → CheckUDP4 env b = some (match env.udpTable with
      | none => false
      | some rs => osMatchSpec4 env.appLookup rs (hostPort b 20) (srcAddr4 b) true) := by
    intro hlen
    unfold CheckUDP4
    cases env.udpTable with
    | none => rfl
    | some rs =>
      simp only [ipv4HeaderLen, Slice.idx_eq b 20 hcap (by omega),
        Slice.idx_eq b 21 hcap (by omega)]
      exact scanUDP4_spec env b _ rs (by omega) (by omega)
  have t6 : 42 ≤ b.len → CheckTCP6 env b = some (match env.tcp6Table with
      | none => false
      | some rs => osMatchSpec6 env.appLookup rs (hostPort b 40) (srcAddr6 b) false) := by
    intro hlen
    unfold CheckTCP6
    cases env.tcp6Table with
    | none => rfl
    | some rs =>
      simp only [ipv6HeaderLen, Slice.idx_eq b 40 hcap (by omega),
        Slice.idx_eq b 41 hcap (by omega), Slice.raw_eq b 8 16 (by omega) (by omega),
        scanTCP6_spec]
      rfl
  refine ⟨t4, u4, t6, fun hlen h => ?_, fun hlen h => ?_, fun hlen h => ?_,
    fun h => ?_, fun h => ?_, fun h => ?_⟩
  · rw [t4 hlen, h]; rfl
  · rw [u4 hlen, h]; rfl
  · rw [t6 hlen, h]; rfl
  · simp [CheckTCP4, h]
  · simp [CheckUDP4, h]
  · simp [CheckTCP6, h]

/-- C8 at the packets of the examples, against OS tables in which pid 1234
owns their sockets. -/
theorem C8_os_table_match_witness :
    CheckTCP4 exEnvOwned (pktOf exAck4) = some (match exEnvOwned.tcpTable with
      | none => false
      | some rs => osMatchSpec4 exEnvOwned.appLookup rs (hostPort (pktOf exAck4) 20)
          (srcAddr4 (pktOf exAck4)) false) ∧
    CheckUDP4 exEnvOwned (pktOf exDns4) = some (match exEnvOwned.udpTable with
      | none => false
      | some rs => osMatchSpec4 exEnvOwned.appLookup rs (hostPort (pktOf exDns4) 20)
          (srcAddr4 (pktOf exDns4)) true) ∧
    CheckTCP6 exEnvOwned (pktOf exSyn6) = some (match exEnvOwned.tcp6Table with
      | none => false
      | some rs => osMatchSpec6 exEnvOwned.appLookup rs (hostPort (pktOf exSyn6) 40)
          (srcAddr6 (pktOf exSyn6)) false) ∧
    CheckTCP4 exEnv (pktOf exAck4) = some false ∧
    CheckUDP4 exEnv (pktOf exDns4) = some false ∧
    CheckTCP6 exEnv (pktOf exSyn6) = some false ∧
    CheckTCP4 { exEnv with tcpTable := none } (pktOf exAck4) = some false ∧
    CheckUDP4 { exEnv with udpTable := none } (pktOf exDns4) = some false ∧
    CheckTCP6 { exEnv with tcp6Table := none } (pktOf exSyn6) = some false :=
  ⟨(C8_os_table_match exEnvOwned (pktOf exAck4) (by decide)).1 (by decide),
   (C8_os_table_match exEnvOwned (pktOf exDns4) (by decide)).2.1 (by decide),
   (C8_os_table_match exEnvOwned (pktOf exSyn6) (by decide)).2.2.1 (by decide),
   (C8_os_table_match exEnv (pktOf exAck4) (by decide)).2.2.2.1 (by decide) rfl,
   (C8_os_table_match exEnv (pktOf exDns4) (by decide)).2.2.2.2.1 (by decide) rfl,
   (C8_os_table_match exEnv (pktOf exSyn6) (by decide)).2.2.2.2.2.1 (by decide) rfl,
   (C8_os_table_match { exEnv with tcpTable := none } (pktOf exAck4)
      (by decide)).2.2.2.2.2.2.1 rfl,
   (C8_os_table_match { exEnv with udpTable := none } (pktOf exDns4)
      (by decide)).2.2.2.2.2.2.2.1 rfl,
   (C8_os_table_match { exEnv with tcp6Table := none } (pktOf exSyn6)
      (by decide)).2.2.2.2.2.2.2.2 rfl⟩

/-! ## C9: `CheckUDP6` -/

/-- What `CheckUDP6` computes: the match of the specification, but against the
`[4]uint32` held in bytes 0..15 of the packet instead of the source address. -/
theorem CheckUDP6_reads_header (env : Env) (b : Slice) (hcap : b.len ≤ b.mem.length)
    (hlen : 42 ≤ b.len) :
    CheckUDP6 env b = some (match env.udp6Table with
      | none => false
      | some rs => osMatchSpec6 env.appLookup rs (hostPort b 40) (le32x4 (b.bytes 0 16)) true) := by
  unfold CheckUDP6
  cases env.udp6Table with
  | none => rfl
  | some rs =>
    simp only [ipv6HeaderLen, Slice.idx_eq b 40 hcap (by omega),
      Slice.idx_eq b 41 hcap (by omega), Slice.raw_eq b 0 16 (by omega) (by omega),
      scanUDP6_spec]
    rfl

/-- C9, the code at the failing input: the UDP6 snapshot holds one record,
local address fd00::1, local port 55005, pid 1234, and the app filter holds
1234; the IPv6 UDP packet comes from [fd00::1]:55005.  The record matches in
the sense of the specification (its address equals bytes 8..23), so the result
should be the app filter's verdict `true`; `CheckUDP6` returns `false`, as does
`CheckIPv6` on the `UNKNOWN` slot, while `CheckTCP6` on the same source address
finds its record. -/
theorem C9_CheckUDP6_misses_source_address :
    exEnvOwned.udp6Table = some [⟨exAddr6, 0xddd6, 1234⟩] ∧
      hostPort (pktOf exUdp6) 40 = 0xddd6 ∧ srcAddr6 (pktOf exUdp6) = exAddr6 ∧
      exEnvOwned.appLookup 1234 = true ∧
      osMatchSpec6 exEnvOwned.appLookup [⟨exAddr6, 0xddd6, 1234⟩]
        (hostPort (pktOf exUdp6) 40) (srcAddr6 (pktOf exUdp6)) true = true ∧
      CheckUDP6 exEnvOwned (pktOf exUdp6) = some false ∧
      (CheckIPv6 exEnvOwned exDev (pktOf exUdp6)).map
        (fun o => (o.verdict, o.dev.UDP6 55005)) = some (false, ALLOW) ∧
      CheckTCP6 exEnvOwned (pktOf exSyn6) = some true := by
  decide

/-! ## C10: what `SendEx` is offered -/

theorem idx_append_left (p t : List Byte) (n k : Nat) (hk : k < p.length) (hn : p.length ≤ n) :
    (Slice.mk (p ++ t) n).idx k = some (p.getD k 0) := by
  have h1 : k < n := by omega
  simp [Slice.idx, h1, List.getElem?_append_left hk, List.getElem?_eq_getElem hk]

theorem byte_append_left (p t : List Byte) (n k : Nat) (hk : k < p.length) :
    (Slice.mk (p ++ t) n).byte k = p.getD k 0 := by
  simp [Slice.byte, List.getElem?_append_left hk]

theorem CheckIPv4_total (env : Env) (d : Device) (b : Slice) (hcap : b.len ≤ b.mem.length)
    (h20 : 20 ≤ b.len) (ht : (b.byte 9).val = ProtocolTCP → 34 ≤ b.len)
    (hu : (b.byte 9).val = ProtocolUDP → 24 ≤ b.len) : ∃ o, CheckIPv4 env d b = some o := by
  by_cases h6 : (b.byte 9).val = ProtocolTCP
  · obtain ⟨o, _, _, ho, _⟩ := CheckIPv4_tcp_any env d b hcap (ht h6) h6
    exact ⟨o, ho⟩
  · by_cases h17 : (b.byte 9).val = ProtocolUDP
    · obtain ⟨o, _, _, ho, _⟩ := CheckIPv4_udp_any env d b hcap (hu h17) h17
      exact ⟨o, ho⟩
    · exact ⟨_, CheckIPv4_other env d b hcap (by omega) (by omega) h6 h17⟩

theorem CheckIPv6_total (env : Env) (d : Device) (b : Slice) (hcap : b.len ≤ b.mem.length)
    (h40 : 40 ≤ b.len) (ht : (b.byte 6).val = ProtocolTCP → 54 ≤ b.len)
    (hu : (b.byte 6).val = ProtocolUDP → 44 ≤ b.len) : ∃ o, CheckIPv6 env d b = some o := by
  by_cases h6 : (b.byte 6).val = ProtocolTCP
  · obtain ⟨o, _, _, ho, _⟩ := CheckIPv6_tcp_any env d b hcap (ht h6) h6
    exact ⟨o, ho⟩
  · by_cases h17 : (b.byte 6).val = ProtocolUDP
    · obtain ⟨o, _, _, ho, _⟩ := CheckIPv6_udp_any env d b hcap (hu h17) h17
      exact ⟨o, ho⟩
    · exact ⟨_, CheckIPv6_other env d b hcap (by omega) (by omega) h6 h17⟩

theorem walk_step4 (W : World) (nr k i : Nat) (st : Batch) (pre p t : List Byte)
    (hb : st.b = pre ++ (p ++ t)) (hnr : pre.length + p.length ≤ nr)
    (hcap : nr ≤ st.b.length) (hv : versionOf p = ipv4Version) (hl : beAt p 2 = p.length)
    (h20 : 20 ≤ p.length) (ht : (p.getD 9 0).val = ProtocolTCP → 34 ≤ p.length)
    (hu : (p.getD 9 0).val = ProtocolUDP → 24 ≤ p.length)
    (hsink : ∀ j data, W.wOk j data = true) (hi : i < st.a.length) :
    ∃ o, CheckIPv4 (W.env i) st.dev ⟨p ++ t, nr - pre.length⟩ = some o ∧
      walk W nr (k + 1) i pre.length st =
        walk W nr k (i + 1) (pre.length + p.length) (afterPacket st pre p t i o) := by
  have hdrop : st.b.drop pre.length = p ++ t := by rw [hb, List.drop_left]
  have hlen : st.b.length = pre.length + (p.length + t.length) := by
    rw [hb]; simp
  have hn : p.length ≤ nr - pre.length := by omega
  have hc : nr - pre.length ≤ (p ++ t).length := by simp; omega
  obtain ⟨o, ho⟩ := CheckIPv4_total (W.env i) st.dev ⟨p ++ t, nr - pre.length⟩ hc
    (by show 20 ≤ nr - pre.length; omega)
    (by rw [byte_append_left p t _ 9 (by omega)]; intro h; have := ht h; show 34 ≤ nr - pre.length; omega)
    (by rw [byte_append_left p t _ 9 (by omega)]; intro h; have := hu h; show 24 ≤ nr - pre.length; omega)
  refine ⟨o, ho, ?_⟩
  have h0 := idx_append_left p t (nr - pre.length) 0 (by omega) hn
  have h2 := idx_append_left p t (nr - pre.length) 2 (by omega) hn
  have h3 := idx_append_left p t (nr - pre.length) 3 (by omega) hn
  have hv2 : (p.getD 0 0).val >>> 4 = ipv4Version := hv
  have hl2 : (p.getD 2 0).val <<< 8 ||| (p.getD 3 0).val = p.length := hl
  have hsub : (Slice.mk (p ++ t) (nr - pre.length)).sub 0 p.length = some p := by
    simp [Slice.sub, List.take_left]
  have h8 : 8 < nr - pre.length := by omega
  have hset : (pre ++ (p ++ t)).set (pre.length + 8) 0 = pre ++ (p.set 8 0 ++ t) := by
    rw [List.set_append_right _ _ (by omega)]
    simp only [Nat.add_sub_cancel_left]
    rw [List.set_append_left _ _ (by omega)]
  rw [walk]
  simp only [hdrop, h0, h2, h3, hv2, hl2, ho, hsub, hsink, hi, h8, hn, if_true]
  cases hver : o.verdict
  · simp [afterPacket, zeroTTL, hver, hb]
  · simp [afterPacket, zeroTTL, hver, hb, hv, hset]

theorem walk_step6 (W : World) (nr k i : Nat) (st : Batch) (pre p t : List Byte)
    (hb : st.b = pre ++ (p ++ t)) (hnr : pre.length + p.length ≤ nr)
    (hcap : nr ≤ st.b.length) (hv : versionOf p = ipv6Version)
    (hl : beAt p 4 + ipv6HeaderLen = p.length)
    (ht : (p.getD 6 0).val = ProtocolTCP → 54 ≤ p.length)
    (hu : (p.getD 6 0).val = ProtocolUDP → 44 ≤ p.length)
    (hsink : ∀ j data, W.wOk j data = true) (hi : i < st.a.length) :
    ∃ o, CheckIPv6 (W.env i) st.dev ⟨p ++ t, nr - pre.length⟩ = some o ∧
      walk W nr (k + 1) i pre.length st =
        walk W nr k (i + 1) (pre.length + p.length) (afterPacket st pre p t i o) := by
  have h40 : 40 ≤ p.length := by
    rw [← hl]; simp [ipv6HeaderLen]
  have hdrop : st.b.drop pre.length = p ++ t := by rw [hb, List.drop_left]
  have hlen : st.b.length = pre.length + (p.length + t.length) := by
    rw [hb]; simp
  have hn : p.length ≤ nr - pre.length := by omega
  have hc : nr - pre.length ≤ (p ++ t).length := by simp; omega
  obtain ⟨o, ho⟩ := CheckIPv6_total (W.env i) st.dev ⟨p ++ t, nr - pre.length⟩ hc
    (by show 40 ≤ nr - pre.length; omega)
    (by rw [byte_append_left p t _ 6 (by omega)]; intro h; have := ht h; show 54 ≤ nr - pre.length; omega)
    (by rw [byte_append_left p t _ 6 (by omega)]; intro h; have := hu h; show 44 ≤ nr - pre.length; omega)
  refine ⟨o, ho, ?_⟩
  have h0 := idx_append_left p t (nr - pre.length) 0 (by omega) hn
  have h4 := idx_append_left p t (nr - pre.length) 4 (by omega) hn
  have h5 := idx_append_left p t (nr - pre.length) 5 (by omega) hn
  have hv2 : (p.getD 0 0).val >>> 4 = ipv6Version := hv
  have hne : ¬ ipv6Version = ipv4Version := by decide
  have hne2 : ¬ versionOf p = ipv4Version := by rw [hv]; exact hne
  have hl2 : ((p.getD 4 0).val <<< 8 ||| (p.getD 5 0).val) + ipv6HeaderLen = p.length := hl
  have hsub : (Slice.mk (p ++ t) (nr - pre.length)).sub 0 p.length = some p := by
    simp [Slice.sub, List.take_left]
  have h7 : 7 < nr - pre.length := by omega
  have hset : (pre ++ (p ++ t)).set (pre.length + 7) 0 = pre ++ (p.set 7 0 ++ t) := by
    rw [List.set_append_right _ _ (by omega)]
    simp only [Nat.add_sub_cancel_left]
    rw [List.set_append_left _ _ (by omega)]
  rw [walk]
  simp only [hdrop, h0, h4, h5, hv2, hne, hl2, ho, hsub, hsink, hi, h7, hn, if_true, if_false]
  cases hver : o.verdict
  · simp [afterPacket, zeroTTL, hver, hb]
  · simp [afterPacket, zeroTTL, hver, hb, hne2, hset]

theorem zeroTTL_length (v : Bool) (p : List Byte) : (zeroTTL v p).length = p.length := by
  unfold zeroTTL
  split
  · split <;> simp
  · rfl

theorem orFlags_append (apre ar : List Address) (x : Address) :
    orFlags (apre ++ x :: ar) apre.length = apre ++ markAddr true x :: ar := by
  induction apre with
  | nil => simp [orFlags, markAddr, f]
  | cons y ys ih =>
    simp only [orFlags] at ih
    simp [orFlags, ih]

theorem walk_wellFormed (W : World) (nr : Nat) (hsink : ∀ j data, W.wOk j data = true)
    (pkts : List (List Byte)) :
    ∀ (pre rest : List Byte) (apre as ar : List Address) (st : Batch),
      (∀ p ∈ pkts, wellFormed p) → st.b = pre ++ (pkts.flatten ++ rest) →
      nr = pre.length + pkts.flatten.length → st.a = apre ++ (as ++ ar) →
      as.length = pkts.length →
      ∃ st1 vs, walk W nr pkts.length apre.length pre.length st = WalkResult.sendEx st1 ∧
        vs.length = pkts.length ∧
        st1.calls = st.calls ++ (starts pre.length pkts).zip vs ∧
        st1.b = pre ++ ((List.zipWith zeroTTL vs pkts).flatten ++ rest) ∧
        st1.a = apre ++ (List.zipWith markAddr vs as ++ ar) ∧
        st1.w = st.w ++ divertedOf vs pkts := by
  induction pkts with
  | nil =>
    intro pre rest apre as ar st _ hb _ ha has
    have : as = [] := List.length_eq_zero.mp has
    subst this
    exact ⟨st, [], rfl, rfl, by simp [starts], by simpa using hb, by simpa using ha,
      by simp [divertedOf]⟩
  | cons p ps ih =>
    intro pre rest apre as ar st hwf hb hnr ha has
    obtain ⟨x, as1, rfl⟩ : ∃ x as1, as = x :: as1 := by
      cases as with
      | nil => simp at has
      | cons x as1 => exact ⟨x, as1, rfl⟩
    have has1 : as1.length = ps.length := by simpa using has
    have hb2 : st.b = pre ++ (p ++ (ps.flatten ++ rest)) := by
      rw [hb]; simp
    have hnr2 : nr = pre.length + (p.length + ps.flatten.length) := by
      rw [hnr, List.flatten_cons, List.length_append]
    have hcap : nr ≤ st.b.length := by
      rw [hb2]; simp only [List.length_append]; omega
    have hi : apre.length < st.a.length := by rw [ha]; simp
    have hstep : ∃ o : Outcome, walk W nr (ps.length + 1) apre.length pre.length st =
        walk W nr ps.length (apre.length + 1) (pre.length + p.length)
          (afterPacket st pre p (ps.flatten ++ rest) apre.length o) := by
      rcases hwf p (List.mem_cons_self _ _) with ⟨hv, hl, h20, ht, hu⟩ | ⟨hv, hl, ht, hu⟩
      · obtain ⟨o, _, ho⟩ := walk_step4 W nr ps.length apre.length st pre p (ps.flatten ++ rest)
          hb2 (by omega) hcap hv hl h20 ht hu hsink hi
        exact ⟨o, ho⟩
      · obtain ⟨o, _, ho⟩ := walk_step6 W nr ps.length apre.length st pre p (ps.flatten ++ rest)
          hb2 (by omega) hcap hv hl ht hu hsink hi
        exact ⟨o, ho⟩
    obtain ⟨o, ho⟩ := hstep
    have ha2 : (afterPacket st pre p (ps.flatten ++ rest) apre.length o).a
        = (apre ++ [markAddr o.verdict x]) ++ (as1 ++ ar) := by
      simp only [afterPacket]
      cases o.verdict
      · simp [ha, markAddr]
      · simp only [if_true, ha, List.cons_append, orFlags_append]
        simp
    obtain ⟨st1, vs, hw, hvs, hcalls, hbuf, haddr, hwr⟩ :=
      ih (pre ++ zeroTTL o.verdict p) rest (apre ++ [markAddr o.verdict x]) as1 ar
        (afterPacket st pre p (ps.flatten ++ rest) apre.length o)
        (fun q hq => hwf q (List.mem_cons_of_mem _ hq))
        (by simp [afterPacket])
        (by rw [List.length_append, zeroTTL_length]; omega)
        ha2 has1
    refine ⟨st1, o.verdict :: vs, ?_, by simp [hvs], ?_, ?_, ?_, ?_⟩
    · rw [List.length_cons, ho]
      simpa [zeroTTL_length] using hw
    · rw [hcalls]
      simp [afterPacket, starts, zeroTTL_length]
    · rw [hbuf]; simp
    · rw [haddr]; simp
    · rw [hwr]
      simp only [afterPacket, divertedOf]
      cases o.verdict <;> simp

theorem starts_length (off : Nat) (pkts : List (List Byte)) :
    (starts off pkts).length = pkts.length := by
  induction pkts generalizing off with
  | nil => rfl
  | cons p ps ih => simp [starts, ih]

theorem zeroTTL_flatten_length (vs : List Bool) (pkts : List (List Byte)) :
    vs.length = pkts.length →
    (List.zipWith zeroTTL vs pkts).flatten.length = pkts.flatten.length := by
  induction pkts generalizing vs with
  | nil => intro _; simp
  | cons p ps ih =>
    intro h
    cases vs with
    | nil => simp at h
    | cons v vs =>
      have h1 : vs.length = ps.length := by simpa using h
      simp only [List.zipWith_cons_cons, List.flatten_cons, List.length_append, zeroTTL_length,
        ih vs h1]

/-- C10: for a received batch of `N ≥ 1` well-formed packets `pkts` (lying at
the start of the buffer, `nr` their total length) whose sink writes all
succeed, the walk of `WriteTo` reaches `SendEx` and offers it a buffer of `nr`
bytes and `N` addresses; with one verdict per packet, in order, the buffer is
the packets as received except that byte 8 of a diverted IPv4 packet and byte
7 of a diverted IPv6 packet are zero, address `i` is the received address `i`
with `0x80|0x40|0x20|0x08` OR-ed into its flags exactly when packet `i` was
diverted, and the diverted packets are the ones written to the sink. -/
theorem C10_sendEx_round_trip (W : World) (d : Device) (pkts : List (List Byte))
    (rest : List Byte) (a : List Address) (hne : pkts ≠ [])
    (hwf : ∀ p ∈ pkts, wellFormed p) (hsink : ∀ j data, W.wOk j data = true)
    (ha : pkts.length ≤ a.length) :
    ∃ buf addrs st,
      WriteToBatch W d (pkts.flatten ++ rest) a pkts.flatten.length pkts.length
        = BatchResult.sendEx buf addrs st ∧
      buf.length = pkts.flatten.length ∧ addrs.length = pkts.length ∧
      st.calls.length = pkts.length ∧
      buf = (List.zipWith zeroTTL (st.calls.map Prod.snd) pkts).flatten ∧
      addrs = List.zipWith markAddr (st.calls.map Prod.snd) (a.take pkts.length) ∧
      st.w = divertedOf (st.calls.map Prod.snd) pkts := by
  obtain ⟨st1, vs, hw, hvs, hcalls, hbuf, haddr, hwr⟩ :=
    walk_wellFormed W pkts.flatten.length hsink pkts [] rest [] (a.take pkts.length)
      (a.drop pkts.length) ⟨pkts.flatten ++ rest, a, d, [], [], []⟩ hwf rfl (by simp)
      (by simp) (by simp [ha])
  simp only [List.length_nil, List.nil_append] at hw hcalls hbuf haddr hwr
  have hsnd : st1.calls.map Prod.snd = vs := by
    rw [hcalls]
    exact List.map_snd_zip _ _ (by rw [starts_length, hvs])
  have hflen := zeroTTL_flatten_length vs pkts hvs
  have hnr : 1 ≤ pkts.flatten.length := by
    cases pkts with
    | nil => exact absurd rfl hne
    | cons p ps =>
      have hp : 20 ≤ p.length := by
        rcases hwf p (List.mem_cons_self _ _) with ⟨_, _, h20, _, _⟩ | ⟨_, hl, _, _⟩
        · exact h20
        · rw [← hl]; simp [ipv6HeaderLen]
      rw [List.flatten_cons, List.length_append]
      omega
  have hnx : 1 ≤ pkts.length := by
    cases pkts with
    | nil => exact absurd rfl hne
    | cons p ps => simp
  have hzl : (List.zipWith markAddr vs (a.take pkts.length)).length = pkts.length := by
    simp [hvs, ha]
  have hcond : ¬ (pkts.flatten.length < 1 ∨ pkts.length < 1) := by omega
  have hcap : pkts.flatten.length ≤ (pkts.flatten ++ rest).length := by
    rw [List.length_append]; omega
  have hal : pkts.length ≤ st1.a.length := by
    rw [haddr, List.length_append, hzl]; omega
  refine ⟨st1.b.take pkts.flatten.length, st1.a.take pkts.length, st1, ?_, ?_, ?_, ?_, ?_, ?_,
    ?_⟩
  · simp only [WriteToBatch, hcond, hcap, hw, hal, if_true, if_false]
  · rw [hbuf, List.take_left' hflen, hflen]
  · rw [haddr, List.take_left' hzl, hzl]
  · rw [hcalls, List.length_zip, starts_length, hvs]; simp
  · rw [hsnd, hbuf, List.take_left' hflen]
  · rw [hsnd, haddr, List.take_left' hzl]
  · rw [hsnd, hwr]

/-- C10 at a batch of three packets of the examples: the filtered SYN, the DNS
query and the unfiltered ACK, followed by three stale bytes in the buffer. -/
theorem C10_sendEx_round_trip_witness :
    ∃ buf addrs st,
      WriteToBatch exWorld exDev ([exSyn4, exDns4, exAck4].flatten ++ [1, 2, 3])
          [exAddr, exAddr, exAddr, exAddr] [exSyn4, exDns4, exAck4].flatten.length
          [exSyn4, exDns4, exAck4].length
        = BatchResult.sendEx buf addrs st ∧
      buf.length = [exSyn4, exDns4, exAck4].flatten.length ∧
      addrs.length = [exSyn4, exDns4, exAck4].length ∧
      st.calls.length = [exSyn4, exDns4, exAck4].length ∧
      buf = (List.zipWith zeroTTL (st.calls.map Prod.snd) [exSyn4, exDns4, exAck4]).flatten ∧
      addrs = List.zipWith markAddr (st.calls.map Prod.snd)
        ([exAddr, exAddr, exAddr, exAddr].take [exSyn4, exDns4, exAck4].length) ∧
      st.w = divertedOf (st.calls.map Prod.snd) [exSyn4, exDns4, exAck4] :=
  C10_sendEx_round_trip exWorld exDev [exSyn4, exDns4, exAck4] [1, 2, 3]
    [exAddr, exAddr, exAddr, exAddr] (by decide) (by decide) (fun _ _ => rfl) (by decide)

/-! ## The walk as an iteration of its body -/

theorem walk_succ (W : World) (nr k i off : Nat) (st : Batch) :
    walk W nr (k + 1) i off st =
      match walkStep W nr i off st with
      | StepResult.next off1 st1 => walk W nr k (i + 1) off1 st1
      | StepResult.stop r => r := by
  rw [walk]
  unfold walkStep
  dsimp only
  split
  · rfl
  · split
    · split
      · split
        · rfl
        · split
          · split
            · rfl
            · split
              · split
                · split
                  · split
                    · rfl
                    · rfl
                  · rfl
                · rfl
              · rfl
          · split
            · rfl
            · rfl
      · rfl
    · split
      · split
        · split
          · rfl
          · split
            · split
              · rfl
              · split
                · split
                  · split
                    · split
                      · rfl
                      · rfl
                    · rfl
                  · rfl
                · rfl
            · split
              · rfl
              · rfl
        · rfl
      · rfl

/-! ## C12: the invalid-version error -/

theorem idx_zero_drop (l : List Byte) (nr off : Nat) :
    (Slice.mk (l.drop off) (nr - off)).idx 0 = if off < nr then l[off]? else none := by
  unfold Slice.idx
  by_cases h : off < nr
  · have h1 : 0 < nr - off := by omega
    simp [h, h1]
  · have h1 : ¬ 0 < nr - off := by omega
    simp [h, h1]

theorem walkStep_invalid (W : World) (nr i off : Nat) (st st1 : Batch) :
    walkStep W nr i off st
        = StepResult.stop (WalkResult.returned (some WalkError.invalidIPVersion) st1) ↔
      st1 = st ∧ ∃ v, (Slice.mk (st.b.drop off) (nr - off)).idx 0 = some v ∧
        v.val >>> 4 ≠ ipv4Version ∧ v.val >>> 4 ≠ ipv6Version := by
  unfold walkStep
  dsimp only
  split
  · next h0 => simp [h0]
  · next v h0 =>
    split
    · next h4 =>
      have hno : ¬ ∃ v1, (Slice.mk (st.b.drop off) (nr - off)).idx 0 = some v1 ∧
          v1.val >>> 4 ≠ ipv4Version ∧ v1.val >>> 4 ≠ ipv6Version := by
        rintro ⟨v1, hv1, hne, _⟩
        rw [h0] at hv1
        cases hv1
        exact hne h4
      split
      · split
        · simp [hno]
        · split
          · split
            · simp [hno]
            · split
              · split
                · split
                  · split
                    · simp [hno]
                    · simp [hno]
                  · simp [hno]
                · simp [hno]
              · cases W.closed <;> simp [hno]
          · split
            · simp [hno]
            · simp [hno]
      · simp [hno]
    · next h4 =>
      split
      · next h6 =>
        have hno : ¬ ∃ v1, (Slice.mk (st.b.drop off) (nr - off)).idx 0 = some v1 ∧
            v1.val >>> 4 ≠ ipv4Version ∧ v1.val >>> 4 ≠ ipv6Version := by
          rintro ⟨v1, hv1, _, hne⟩
          rw [h0] at hv1
          cases hv1
          exact hne h6
        split
        · split
          · simp [hno]
          · split
            · split
              · simp [hno]
              · split
                · split
                  · split
                    · split
                      · simp [hno]
                      · simp [hno]
                    · simp [hno]
                  · simp [hno]
                · cases W.closed <;> simp [hno]
            · split
              · simp [hno]
              · simp [hno]
        · simp [hno]
      · next h6 =>
        constructor
        · intro h
          simp only [StepResult.stop.injEq, WalkResult.returned.injEq, true_and] at h
          exact ⟨h.symm, v, h0, h4, h6⟩
        · rintro ⟨rfl, _⟩
          rfl

theorem walk_reach (W : World) (nr k : Nat) :
    ∀ (j i off : Nat) (st : Batch) (off1 : Nat) (st1 : Batch),
      reach W nr j i off st = some (off1, st1) →
      walk W nr (j + k) i off st = walk W nr k (i + j) off1 st1 := by
  intro j
  induction j with
  | zero =>
    intro i off st off1 st1 h
    simp only [reach, Option.some.injEq, Prod.mk.injEq] at h
    obtain ⟨rfl, rfl⟩ := h
    simp
  | succ j ih =>
    intro i off st off1 st1 h
    have e : j + 1 + k = (j + k) + 1 := by omega
    rw [e, walk_succ]
    rw [reach] at h
    split at h
    · next off2 st2 hs =>
      rw [ih (i + 1) off2 st2 off1 st1 h]
      have e2 : i + 1 + j = i + (j + 1) := by omega
      rw [e2]
    · simp at h

theorem walk_invalid_reach (W : World) (nr : Nat) :
    ∀ (k i off : Nat) (st st1 : Batch),
      walk W nr k i off st = WalkResult.returned (some WalkError.invalidIPVersion) st1 →
      ∃ j off1, j < k ∧ reach W nr j i off st = some (off1, st1) ∧
        ∃ v, (Slice.mk (st1.b.drop off1) (nr - off1)).idx 0 = some v ∧
          v.val >>> 4 ≠ ipv4Version ∧ v.val >>> 4 ≠ ipv6Version := by
  intro k
  induction k with
  | zero =>
    intro i off st st1 h
    simp [walk] at h
  | succ k ih =>
    intro i off st st1 h
    rw [walk_succ] at h
    split at h
    · next off2 st2 hs =>
      obtain ⟨j, off1, hj, hr, hv⟩ := ih (i + 1) off2 st2 st1 h
      refine ⟨j + 1, off1, by omega, ?_, hv⟩
      rw [reach, hs]
      exact hr
    · next r hs =>
      subst h
      obtain ⟨rfl, hv⟩ := (walkStep_invalid W nr i off st st1).1 hs
      exact ⟨0, off, by omega, rfl, hv⟩

/-- C12: in a batch delivered by `RecvEx` (`nr` bytes, `nx` packets), if the
walk reaches, after `j < nx` iterations, a position `off < nr` whose byte has a
high nibble other than 4 or 6, `WriteTo` returns the error `invalid ip version`
in the very state `st` it reached that position with: no classify call and no
sink write is added, and `SendEx` is not called.  Conversely, when the batch
ends with that error in state `st`, the walk had reached such a position in
state `st`. -/
theorem C12_invalid_version (W : World) (d : Device) (b : List Byte) (a : List Address)
    (nr nx : Nat) (hcap : nr ≤ b.length) :
    (∀ j off st v, j < nx → reach W nr j 0 0 ⟨b, a, d, [], [], []⟩ = some (off, st) →
      off < nr → st.b[off]? = some v → v.val >>> 4 ≠ 4 → v.val >>> 4 ≠ 6 →
      WriteToBatch W d b a nr nx
        = BatchResult.returned (some WalkError.invalidIPVersion) st) ∧
    (∀ st, WriteToBatch W d b a nr nx
        = BatchResult.returned (some WalkError.invalidIPVersion) st →
      ∃ j off v, j < nx ∧ reach W nr j 0 0 ⟨b, a, d, [], [], []⟩ = some (off, st) ∧
        off < nr ∧ st.b[off]? = some v ∧ v.val >>> 4 ≠ 4 ∧ v.val >>> 4 ≠ 6) := by
  constructor
  · intro j off st v hj hr hoff hv h4 h6
    have hw : walk W nr nx 0 0 ⟨b, a, d, [], [], []⟩
        = WalkResult.returned (some WalkError.invalidIPVersion) st := by
      obtain ⟨k, rfl⟩ : ∃ k, nx = j + (k + 1) := ⟨nx - j - 1, by omega⟩
      rw [walk_reach W nr (k + 1) j 0 0 _ off st hr, walk_succ]
      have hs := (walkStep_invalid W nr (0 + j) off st st).2
        ⟨rfl, v, by rw [idx_zero_drop, if_pos hoff]; exact hv, h4, h6⟩
      rw [hs]
    have hcond : ¬ (nr < 1 ∨ nx < 1) := by omega
    simp only [WriteToBatch, hcond, hcap, hw, if_true, if_false]
  · intro st h
    by_cases hcond : nr < 1 ∨ nx < 1
    · simp only [WriteToBatch, hcond, if_true] at h
      cases h
    · simp only [WriteToBatch, hcond, hcap, if_true, if_false] at h
      cases hw : walk W nr nx 0 0 ⟨b, a, d, [], [], []⟩ with
      | panic st1 =>
        rw [hw] at h
        simp at h
      | sendEx st1 =>
        rw [hw] at h
        simp only at h
        split at h <;> simp at h
      | returned err st1 =>
        rw [hw] at h
        simp only [BatchResult.returned.injEq] at h
        obtain ⟨rfl, rfl⟩ := h
        obtain ⟨j, off, hj, hr, v, hv, h4, h6⟩ := walk_invalid_reach W nr nx 0 0 _ _ hw
        rw [idx_zero_drop] at hv
        split at hv
        · next hoff => exact ⟨j, off, v, hj, hr, hoff, hv, h4, h6⟩
        · simp at hv

/-- C12 at a batch of two packets whose second starts with the version nibble
5: the walk diverts the first packet and then returns the error. -/
theorem C12_invalid_version_witness :
    WriteToBatch exWorld exDev exBadBuf [exAddr, exAddr] 44 2
        = BatchResult.returned (some WalkError.invalidIPVersion) exAfterSyn ∧
    ∃ j off v, j < 2 ∧
      reach exWorld 44 j 0 0 ⟨exBadBuf, [exAddr, exAddr], exDev, [], [], []⟩
        = some (off, exAfterSyn) ∧
      off < 44 ∧ exAfterSyn.b[off]? = some v ∧ v.val >>> 4 ≠ 4 ∧ v.val >>> 4 ≠ 6 :=
  have h := C12_invalid_version exWorld exDev exBadBuf [exAddr, exAddr] 44 2 (by decide)
  have h1 := h.1 1 40 exAfterSyn 0x50 (by decide) rfl (by decide) (by decide) (by decide)
    (by decide)
  ⟨h1, h.2 exAfterSyn h1⟩

/-! ## The walk over well-formed packets, whatever the sink does -/

theorem walkStep4_wf (W : World) (nr i : Nat) (st : Batch) (pre p t : List Byte)
    (hb : st.b = pre ++ (p ++ t)) (hnr : pre.length + p.length ≤ nr)
    (hcap : nr ≤ st.b.length) (hv : versionOf p = ipv4Version) (hl : beAt p 2 = p.length)
    (h20 : 20 ≤ p.length) (ht : (p.getD 9 0).val = ProtocolTCP → 34 ≤ p.length)
    (hu : (p.getD 9 0).val = ProtocolUDP → 24 ≤ p.length) (hi : i < st.a.length) :
    ∃ o, CheckIPv4 (W.env i) st.dev ⟨p ++ t, nr - pre.length⟩ = some o ∧
      walkStep W nr i pre.length st =
        if o.verdict = true ∧ W.wOk i p = false then
          StepResult.stop (WalkResult.returned
            (if W.closed then none else some WalkError.writeInWriteTo)
            (failedWrite st pre.length p o))
        else StepResult.next (pre.length + p.length) (afterPacket st pre p t i o) := by
  have hdrop : st.b.drop pre.length = p ++ t := by rw [hb, List.drop_left]
  have hlen : st.b.length = pre.length + (p.length + t.length) := by
    rw [hb]; simp
  have hn : p.length ≤ nr - pre.length := by omega
  have hc : nr - pre.length ≤ (p ++ t).length := by simp; omega
  obtain ⟨o, ho⟩ := CheckIPv4_total (W.env i) st.dev ⟨p ++ t, nr - pre.length⟩ hc
    (by show 20 ≤ nr - pre.length; omega)
    (by rw [byte_append_left p t _ 9 (by omega)]; intro h; have := ht h
        show 34 ≤ nr - pre.length; omega)
    (by rw [byte_append_left p t _ 9 (by omega)]; intro h; have := hu h
        show 24 ≤ nr - pre.length; omega)
  refine ⟨o, ho, ?_⟩
  have h0 := idx_append_left p t (nr - pre.length) 0 (by omega) hn
  have h2 := idx_append_left p t (nr - pre.length) 2 (by omega) hn
  have h3 := idx_append_left p t (nr - pre.length) 3 (by omega) hn
  have hv2 : (p.getD 0 0).val >>> 4 = ipv4Version := hv
  have hl2 : (p.getD 2 0).val <<< 8 ||| (p.getD 3 0).val = p.length := hl
  have hsub : (Slice.mk (p ++ t) (nr - pre.length)).sub 0 p.length = some p := by
    simp [Slice.sub, List.take_left]
  have h8 : 8 < nr - pre.length := by omega
  have hset : (pre ++ (p ++ t)).set (pre.length + 8) 0 = pre ++ (p.set 8 0 ++ t) := by
    rw [List.set_append_right _ _ (by omega)]
    simp only [Nat.add_sub_cancel_left]
    rw [List.set_append_left _ _ (by omega)]
  unfold walkStep
  simp only [hdrop, h0, h2, h3, hv2, hl2, ho, hsub, hi, h8, hn, if_true]
  cases hver : o.verdict
  · simp [afterPacket, zeroTTL, hb, hver]
  · cases hok : W.wOk i p
    · simp [failedWrite, hver]
    · simp [afterPacket, zeroTTL, hver, hb, hv, hset]

theorem walkStep6_wf (W : World) (nr i : Nat) (st : Batch) (pre p t : List Byte)
    (hb : st.b = pre ++ (p ++ t)) (hnr : pre.length + p.length ≤ nr)
    (hcap : nr ≤ st.b.length) (hv : versionOf p = ipv6Version)
    (hl : beAt p 4 + ipv6HeaderLen = p.length)
    (ht : (p.getD 6 0).val = ProtocolTCP → 54 ≤ p.length)
    (hu : (p.getD 6 0).val = ProtocolUDP → 44 ≤ p.length) (hi : i < st.a.length) :
    ∃ o, CheckIPv6 (W.env i) st.dev ⟨p ++ t, nr - pre.length⟩ = some o ∧
      walkStep W nr i pre.length st =
        if o.verdict = true ∧ W.wOk i p = false then
          StepResult.stop (WalkResult.returned
            (if W.closed then none else some WalkError.writeInWriteTo)
            (failedWrite st pre.length p o))
        else StepResult.next (pre.length + p.length) (afterPacket st pre p t i o) := by
  have h40 : 40 ≤ p.length := by
    rw [← hl]; simp [ipv6HeaderLen]
  have hdrop : st.b.drop pre.length = p ++ t := by rw [hb, List.drop_left]
  have hlen : st.b.length = pre.length + (p.length + t.length) := by
    rw [hb]; simp
  have hn : p.length ≤ nr - pre.length := by omega
  have hc : nr - pre.length ≤ (p ++ t).length := by simp; omega
  obtain ⟨o, ho⟩ := CheckIPv6_total (W.env i) st.dev ⟨p ++ t, nr - pre.length⟩ hc
    (by show 40 ≤ nr - pre.length; omega)
    (by rw [byte_append_left p t _ 6 (by omega)]; intro h; have := ht h
        show 54 ≤ nr - pre.length; omega)
    (by rw [byte_append_left p t _ 6 (by omega)]; intro h; have := hu h
        show 44 ≤ nr - pre.length; omega)
  refine ⟨o, ho, ?_⟩
  have h0 := idx_append_left p t (nr - pre.length) 0 (by omega) hn
  have h4 := idx_append_left p t (nr - pre.length) 4 (by omega) hn
  have h5 := idx_append_left p t (nr - pre.length) 5 (by omega) hn
  have hv2 : (p.getD 0 0).val >>> 4 = ipv6Version := hv
  have hne : ¬ ipv6Version = ipv4Version := by decide
  have hne2 : ¬ versionOf p = ipv4Version := by rw [hv]; exact hne
  have hl2 : ((p.getD 4 0).val <<< 8 ||| (p.getD 5 0).val) + ipv6HeaderLen = p.length := hl
  have hsub : (Slice.mk (p ++ t) (nr - pre.length)).sub 0 p.length = some p := by
    simp [Slice.sub, List.take_left]
  have h7 : 7 < nr - pre.length := by omega
  have hset : (pre ++ (p ++ t)).set (pre.length + 7) 0 = pre ++ (p.set 7 0 ++ t) := by
    rw [List.set_append_right _ _ (by omega)]
    simp only [Nat.add_sub_cancel_left]
    rw [List.set_append_left _ _ (by omega)]
  unfold walkStep
  simp only [hdrop, h0, h4, h5, hv2, hne, hl2, ho, hsub, hi, h7, hn, if_true, if_false]
  cases hver : o.verdict
  · simp [afterPacket, zeroTTL, hb, hver]
  · cases hok : W.wOk i p
    · simp [failedWrite, hver]
    · simp [afterPacket, zeroTTL, hver, hb, hne2, hset]

/-- One iteration of the loop on a well-formed packet `p` at offset
`pre.length`: some outcome `o` of the classifier decides how it ends. -/
theorem walkStep_wf (W : World) (nr i : Nat) (st : Batch) (pre p t : List Byte)
    (hwf : wellFormed p) (hb : st.b = pre ++ (p ++ t)) (hnr : pre.length + p.length ≤ nr)
    (hcap : nr ≤ st.b.length) (hi : i < st.a.length) :
    ∃ o : Outcome, walkStep W nr i pre.length st =
        if o.verdict = true ∧ W.wOk i p = false then
          StepResult.stop (WalkResult.returned
            (if W.closed then none else some WalkError.writeInWriteTo)
            (failedWrite st pre.length p o))
        else StepResult.next (pre.length + p.length) (afterPacket st pre p t i o) := by
  rcases hwf with ⟨hv, hl, h20, ht, hu⟩ | ⟨hv, hl, ht, hu⟩
  · obtain ⟨o, _, ho⟩ := walkStep4_wf W nr i st pre p t hb hnr hcap hv hl h20 ht hu hi
    exact ⟨o, ho⟩
  · obtain ⟨o, _, ho⟩ := walkStep6_wf W nr i st pre p t hb hnr hcap hv hl ht hu hi
    exact ⟨o, ho⟩

theorem afterPacket_a (st : Batch) (pre p t : List Byte) (apre as1 ar : List Address)
    (x : Address) (o : Outcome) (ha : st.a = apre ++ (x :: as1 ++ ar)) :
    (afterPacket st pre p t apre.length o).a
      = (apre ++ [markAddr o.verdict x]) ++ (as1 ++ ar) := by
  simp only [afterPacket]
  cases o.verdict
  · simp [ha, markAddr]
  · simp only [if_true, ha, List.cons_append, orFlags_append]
    simp

theorem walk_wf_any (W : World) (nr : Nat) (pkts : List (List Byte)) :
    ∀ (pre rest : List Byte) (apre as ar : List Address) (st : Batch),
      (∀ p ∈ pkts, wellFormed p) → st.b = pre ++ (pkts.flatten ++ rest) →
      nr = pre.length + pkts.flatten.length → st.a = apre ++ (as ++ ar) →
      as.length = pkts.length →
      ∃ st1 vs,
        (walk W nr pkts.length apre.length pre.length st = WalkResult.sendEx st1 ∧
            vs.length = pkts.length ∨
          walk W nr pkts.length apre.length pre.length st
              = WalkResult.returned (if W.closed then none else some WalkError.writeInWriteTo)
                  st1 ∧
            vs.length ≤ pkts.length) ∧
        st1.calls = st.calls ++ (starts pre.length pkts).zip vs ∧
        st1.w = st.w ++ divertedOf vs pkts ∧ st1.a.length = st.a.length := by
  induction pkts with
  | nil =>
    intro pre rest apre as ar st _ _ _ _ _
    exact ⟨st, [], Or.inl ⟨rfl, rfl⟩, by simp [starts], by simp [divertedOf], rfl⟩
  | cons p ps ih =>
    intro pre rest apre as ar st hwf hb hnr ha has
    obtain ⟨x, as1, rfl⟩ : ∃ x as1, as = x :: as1 := by
      cases as with
      | nil => simp at has
      | cons x as1 => exact ⟨x, as1, rfl⟩
    have has1 : as1.length = ps.length := by simpa using has
    have hb2 : st.b = pre ++ (p ++ (ps.flatten ++ rest)) := by
      rw [hb]; simp
    have hnr2 : nr = pre.length + (p.length + ps.flatten.length) := by
      rw [hnr, List.flatten_cons, List.length_append]
    have hcap : nr ≤ st.b.length := by
      rw [hb2]; simp only [List.length_append]; omega
    have hi : apre.length < st.a.length := by rw [ha]; simp
    obtain ⟨o, ho⟩ := walkStep_wf W nr apre.length st pre p (ps.flatten ++ rest)
      (hwf p (List.mem_cons_self _ _)) hb2 (by omega) hcap hi
    rw [List.length_cons, walk_succ, ho]
    by_cases hfail : o.verdict = true ∧ W.wOk apre.length p = false
    · rw [if_pos hfail]
      refine ⟨failedWrite st pre.length p o, [true], Or.inr ⟨rfl, by simp⟩, ?_, ?_, rfl⟩
      · simp [failedWrite, starts, hfail.1]
      · simp [failedWrite, divertedOf]
    · rw [if_neg hfail]
      obtain ⟨st1, vs, hres, hcalls, hwr, hal⟩ :=
        ih (pre ++ zeroTTL o.verdict p) rest (apre ++ [markAddr o.verdict x]) as1 ar
          (afterPacket st pre p (ps.flatten ++ rest) apre.length o)
          (fun q hq => hwf q (List.mem_cons_of_mem _ hq))
          (by simp [afterPacket])
          (by rw [List.length_append, zeroTTL_length]; omega)
          (afterPacket_a st pre p _ apre as1 ar x o ha) has1
      simp only [List.length_append, List.length_singleton, zeroTTL_length] at hres hcalls
      refine ⟨st1, o.verdict :: vs, ?_, ?_, ?_, ?_⟩
      · rcases hres with ⟨h1, h2⟩ | ⟨h1, h2⟩
        · exact Or.inl ⟨h1, by simp [h2]⟩
        · exact Or.inr ⟨h1, by simp [h2]⟩
      · rw [hcalls]
        simp [afterPacket, starts]
      · rw [hwr]
        simp only [afterPacket, divertedOf]
        cases o.verdict <;> simp
      · rw [hal]
        simp only [afterPacket]
        cases o.verdict
        · simp
        · simp [orFlags]

theorem reach_wf (W : World) (nr : Nat) (hsink : ∀ j data, W.wOk j data = true)
    (pkts : List (List Byte)) :
    ∀ (pre rest : List Byte) (apre as ar : List Address) (st : Batch),
      (∀ p ∈ pkts, wellFormed p) → st.b = pre ++ (pkts.flatten ++ rest) →
      nr = pre.length + pkts.flatten.length → st.a = apre ++ (as ++ ar) →
      as.length = pkts.length →
      ∃ st1 vs, reach W nr pkts.length apre.length pre.length st = some (nr, st1) ∧
        vs.length = pkts.length ∧
        st1.calls = st.calls ++ (starts pre.length pkts).zip vs ∧
        st1.a.length = st.a.length := by
  induction pkts with
  | nil =>
    intro pre rest apre as ar st _ _ hnr _ _
    refine ⟨st, [], ?_, rfl, by simp [starts], rfl⟩
    simp [reach, hnr]
  | cons p ps ih =>
    intro pre rest apre as ar st hwf hb hnr ha has
    obtain ⟨x, as1, rfl⟩ : ∃ x as1, as = x :: as1 := by
      cases as with
      | nil => simp at has
      | cons x as1 => exact ⟨x, as1, rfl⟩
    have has1 : as1.length = ps.length := by simpa using has
    have hb2 : st.b = pre ++ (p ++ (ps.flatten ++ rest)) := by
      rw [hb]; simp
    have hnr2 : nr = pre.length + (p.length + ps.flatten.length) := by
      rw [hnr, List.flatten_cons, List.length_append]
    have hcap : nr ≤ st.b.length := by
      rw [hb2]; simp only [List.length_append]; omega
    have hi : apre.length < st.a.length := by rw [ha]; simp
    obtain ⟨o, ho⟩ := walkStep_wf W nr apre.length st pre p (ps.flatten ++ rest)
      (hwf p (List.mem_cons_self _ _)) hb2 (by omega) hcap hi
    have hok : ¬ (o.verdict = true ∧ W.wOk apre.length p = false) := by
      rw [hsink]; simp
    rw [if_neg hok] at ho
    obtain ⟨st1, vs, hres, hvs, hcalls, hal⟩ :=
      ih (pre ++ zeroTTL o.verdict p) rest (apre ++ [markAddr o.verdict x]) as1 ar
        (afterPacket st pre p (ps.flatten ++ rest) apre.length o)
        (fun q hq => hwf q (List.mem_cons_of_mem _ hq))
        (by simp [afterPacket])
        (by rw [List.length_append, zeroTTL_length]; omega)
        (afterPacket_a st pre p _ apre as1 ar x o ha) has1
    simp only [List.length_append, List.length_singleton, zeroTTL_length] at hres hcalls
    refine ⟨st1, o.verdict :: vs, ?_, by simp [hvs], ?_, ?_⟩
    · rw [List.length_cons, reach, ho]
      exact hres
    · rw [hcalls]
      simp [afterPacket, starts]
    · rw [hal]
      simp only [afterPacket]
      cases o.verdict
      · simp
      · simp [orFlags]

/-! ## C11: what the sink is written -/

theorem getD_append_mid (pre p t : List Byte) (k : Nat) (hk : k < p.length) :
    (pre ++ (p ++ t)).getD (pre.length + k) 0 = p.getD k 0 := by
  simp only [List.getD_eq_getElem?_getD]
  rw [List.getElem?_append_right (by omega)]
  simp only [Nat.add_sub_cancel_left]
  rw [List.getElem?_append_left hk]

theorem declaredLen_at (pre p t : List Byte) (hwf : wellFormed p) :
    declaredLen (pre ++ (p ++ t)) pre.length = p.length := by
  have hlen : 20 ≤ p.length := by
    rcases hwf with ⟨_, _, h20, _, _⟩ | ⟨_, hl, _, _⟩
    · exact h20
    · rw [← hl]; simp [ipv6HeaderLen]
  have h0 : (pre ++ (p ++ t)).getD pre.length 0 = p.getD 0 0 := by
    have := getD_append_mid pre p t 0 (by omega)
    simpa using this
  have hbe : ∀ k, k + 1 < p.length → beAt (pre ++ (p ++ t)) (pre.length + k) = beAt p k := by
    intro k hk
    unfold beAt
    rw [getD_append_mid pre p t k (by omega), Nat.add_assoc,
      getD_append_mid pre p t (k + 1) hk]
  unfold declaredLen
  rw [h0]
  rcases hwf with ⟨hv, hl, _, _, _⟩ | ⟨hv, hl, _, _⟩
  · have hv2 : (p.getD 0 0).val >>> 4 = ipv4Version := hv
    rw [if_pos hv2, hbe 2 (by omega), hl]
  · have hv2 : ¬ (p.getD 0 0).val >>> 4 = ipv4Version := by
      have hv3 : (p.getD 0 0).val >>> 4 = ipv6Version := hv
      rw [hv3]; decide
    rw [if_neg hv2, hbe 4 (by omega)]
    exact hl

theorem divertedOf_eq_writesSpec (pkts : List (List Byte)) :
    ∀ (pre rest : List Byte) (vs : List Bool), (∀ p ∈ pkts, wellFormed p) →
      divertedOf vs pkts
        = writesSpec (pre ++ (pkts.flatten ++ rest)) ((starts pre.length pkts).zip vs) := by
  induction pkts with
  | nil =>
    intro pre rest vs _
    cases vs <;> simp [divertedOf, writesSpec, starts]
  | cons p ps ih =>
    intro pre rest vs hwf
    cases vs with
    | nil => simp [divertedOf, writesSpec, starts]
    | cons v vs =>
      have hb : pre ++ ((p :: ps).flatten ++ rest) = pre ++ (p ++ (ps.flatten ++ rest)) := by
        simp
      have hd := declaredLen_at pre p (ps.flatten ++ rest) (hwf p (List.mem_cons_self _ _))
      have htake : ((pre ++ (p ++ (ps.flatten ++ rest))).drop pre.length).take p.length = p := by
        rw [List.drop_left, List.take_left]
      have ih2 := ih (pre ++ p) rest vs (fun q hq => hwf q (List.mem_cons_of_mem _ hq))
      rw [List.length_append, List.append_assoc] at ih2
      rw [hb]
      simp only [divertedOf, starts, List.zip_cons_cons, writesSpec, List.filterMap_cons]
      cases v
      · simp only [Bool.false_eq_true, if_false]
        exact ih2
      · simp only [if_true, hd, htake]
        rw [ih2]
        rfl

theorem map_fst_zip_take (l : List Nat) (vs : List Bool) :
    (l.zip vs).map Prod.fst = l.take vs.length := by
  induction l generalizing vs with
  | nil => simp
  | cons x xs ih =>
    cases vs with
    | nil => simp
    | cons v vs => simp [ih]

/-- What `WriteToBatch` returns for a batch that starts with the well-formed
packets `pkts`, whatever the sink does: `SendEx` is reached, or `WriteTo`
returns on a refused sink write; `vs` are the verdicts of the classify calls
made. -/
theorem WriteToBatch_wf (W : World) (d : Device) (pkts : List (List Byte))
    (rest : List Byte) (a : List Address) (hne : pkts ≠ [])
    (hwf : ∀ p ∈ pkts, wellFormed p) (ha : pkts.length ≤ a.length) :
    ∃ st vs,
      ((∃ buf addrs, WriteToBatch W d (pkts.flatten ++ rest) a pkts.flatten.length pkts.length
            = BatchResult.sendEx buf addrs st) ∧ vs.length = pkts.length ∨
        WriteToBatch W d (pkts.flatten ++ rest) a pkts.flatten.length pkts.length
            = BatchResult.returned (if W.closed then none else some WalkError.writeInWriteTo)
                st ∧ vs.length ≤ pkts.length) ∧
      st.calls = (starts 0 pkts).zip vs ∧ st.w = divertedOf vs pkts := by
  obtain ⟨st1, vs, hres, hcalls, hwr, hal⟩ :=
    walk_wf_any W pkts.flatten.length pkts [] rest [] (a.take pkts.length)
      (a.drop pkts.length) ⟨pkts.flatten ++ rest, a, d, [], [], []⟩ hwf rfl (by simp)
      (by simp) (by simp [ha])
  simp only [List.length_nil, List.nil_append] at hres hcalls hwr hal
  have hnr : 1 ≤ pkts.flatten.length := by
    cases pkts with
    | nil => exact absurd rfl hne
    | cons p ps =>
      have hp : 20 ≤ p.length := by
        rcases hwf p (List.mem_cons_self _ _) with ⟨_, _, h20, _, _⟩ | ⟨_, hl, _, _⟩
        · exact h20
        · rw [← hl]; simp [ipv6HeaderLen]
      rw [List.flatten_cons, List.length_append]
      omega
  have hnx : 1 ≤ pkts.length := by
    cases pkts with
    | nil => exact absurd rfl hne
    | cons p ps => simp
  have hcond : ¬ (pkts.flatten.length < 1 ∨ pkts.length < 1) := by omega
  have hcap : pkts.flatten.length ≤ (pkts.flatten ++ rest).length := by
    rw [List.length_append]; omega
  have hal2 : pkts.length ≤ st1.a.length := by rw [hal]; exact ha
  refine ⟨st1, vs, ?_, hcalls, hwr⟩
  rcases hres with ⟨hw, hvs⟩ | ⟨hw, hvs⟩
  · refine Or.inl ⟨⟨st1.b.take pkts.flatten.length, st1.a.take pkts.length, ?_⟩, hvs⟩
    simp only [WriteToBatch, hcond, hcap, hw, hal2, if_true, if_false]
  · refine Or.inr ⟨?_, hvs⟩
    simp only [WriteToBatch, hcond, hcap, hw, if_true, if_false]

/-- C11: for a received batch that starts with the well-formed packets `pkts`,
whatever the sink does, the walk ends at `SendEx` or returns on a refused sink
write, and the writes it made to the sink are, in receive order, one per
packet it classified as diverted and none for a packet it let pass; each write
is that packet as received, that is the bytes `[start, start + l)` of the
received buffer, `l` being the big-endian value of bytes 2..3 of an IPv4
packet and 40 plus the big-endian value of bytes 4..5 of an IPv6 packet. -/
theorem C11_sink_writes (W : World) (d : Device) (pkts : List (List Byte))
    (rest : List Byte) (a : List Address) (hne : pkts ≠ [])
    (hwf : ∀ p ∈ pkts, wellFormed p) (ha : pkts.length ≤ a.length) :
    ∃ st vs,
      ((∃ buf addrs, WriteToBatch W d (pkts.flatten ++ rest) a pkts.flatten.length pkts.length
            = BatchResult.sendEx buf addrs st) ∧ vs.length = pkts.length ∨
        WriteToBatch W d (pkts.flatten ++ rest) a pkts.flatten.length pkts.length
            = BatchResult.returned (if W.closed then none else some WalkError.writeInWriteTo)
                st ∧ vs.length ≤ pkts.length) ∧
      st.calls = (starts 0 pkts).zip vs ∧
      st.w = divertedOf vs pkts ∧
      st.w = writesSpec (pkts.flatten ++ rest) st.calls := by
  obtain ⟨st, vs, hres, hcalls, hwr⟩ := WriteToBatch_wf W d pkts rest a hne hwf ha
  refine ⟨st, vs, hres, hcalls, hwr, ?_⟩
  rw [hwr, hcalls]
  exact divertedOf_eq_writesSpec pkts [] rest vs hwf

/-- C11 at a batch of three packets of the examples. -/
theorem C11_sink_writes_witness :
    ∃ st vs,
      ((∃ buf addrs, WriteToBatch exWorld exDev ([exSyn4, exDns4, exAck4].flatten ++ [1, 2, 3])
            [exAddr, exAddr, exAddr, exAddr] [exSyn4, exDns4, exAck4].flatten.length
            [exSyn4, exDns4, exAck4].length
            = BatchResult.sendEx buf addrs st) ∧ vs.length = [exSyn4, exDns4, exAck4].length ∨
        WriteToBatch exWorld exDev ([exSyn4, exDns4, exAck4].flatten ++ [1, 2, 3])
            [exAddr, exAddr, exAddr, exAddr] [exSyn4, exDns4, exAck4].flatten.length
            [exSyn4, exDns4, exAck4].length
            = BatchResult.returned
                (if exWorld.closed then none else some WalkError.writeInWriteTo) st ∧
          vs.length ≤ [exSyn4, exDns4, exAck4].length) ∧
      st.calls = (starts 0 [exSyn4, exDns4, exAck4]).zip vs ∧
      st.w = divertedOf vs [exSyn4, exDns4, exAck4] ∧
      st.w = writesSpec ([exSyn4, exDns4, exAck4].flatten ++ [1, 2, 3]) st.calls :=
  C11_sink_writes exWorld exDev [exSyn4, exDns4, exAck4] [1, 2, 3]
    [exAddr, exAddr, exAddr, exAddr] (by decide) (by decide) (by decide)

/-! ## C14: the walk stays in range -/

/-- C14, as stated, fails: with a sink that refuses the write, the walk over
the two well-formed packets `exSyn4`, `exAck4` returns the write error after
the classify call at offset 0; the packet at offset 40 is never classified. -/
theorem C14_counterexample :
    (∀ p ∈ [exSyn4, exAck4], wellFormed p) ∧ starts 0 [exSyn4, exAck4] = [0, 40] ∧
      (match WriteToBatch exWorldFailing exDev [exSyn4, exAck4].flatten [exAddr, exAddr]
          [exSyn4, exAck4].flatten.length [exSyn4, exAck4].length with
        | BatchResult.returned e st => some (e, st.calls)
        | _ => none) = some (some WalkError.writeInWriteTo, [(0, true)]) := by
  decide

/-- C14, amended: for a batch buffer whose first `nr` bytes are the
concatenation of `nx ≥ 1` well-formed packets, the walk of `WriteTo` makes no
out-of-range index or slice access (it ends at `SendEx` or returns on a
refused sink write) and its classify calls are made in receive order, each at
the start offset of its packet and none twice; when no sink write is refused,
it classifies each of the `nx` packets exactly once at its own start offset,
ends with the remaining slice `b[nr:nr]` empty and reaches `SendEx`. -/
theorem C14_walk_in_range (W : World) (d : Device) (pkts : List (List Byte))
    (rest : List Byte) (a : List Address) (hne : pkts ≠ [])
    (hwf : ∀ p ∈ pkts, wellFormed p) (ha : pkts.length ≤ a.length) :
    (∃ st,
      ((∃ buf addrs, WriteToBatch W d (pkts.flatten ++ rest) a pkts.flatten.length pkts.length
            = BatchResult.sendEx buf addrs st) ∨
        WriteToBatch W d (pkts.flatten ++ rest) a pkts.flatten.length pkts.length
            = BatchResult.returned (if W.closed then none else some WalkError.writeInWriteTo)
                st) ∧
      st.calls.length ≤ pkts.length ∧
      st.calls.map Prod.fst = (starts 0 pkts).take st.calls.length) ∧
    ((∀ j data, W.wOk j data = true) →
      ∃ st buf addrs,
        reach W pkts.flatten.length pkts.length 0 0 ⟨pkts.flatten ++ rest, a, d, [], [], []⟩
          = some (pkts.flatten.length, st) ∧
        WriteToBatch W d (pkts.flatten ++ rest) a pkts.flatten.length pkts.length
          = BatchResult.sendEx buf addrs st ∧
        st.calls.map Prod.fst = starts 0 pkts) := by
  constructor
  · obtain ⟨st, vs, hres, hcalls, _⟩ := WriteToBatch_wf W d pkts rest a hne hwf ha
    have hvs : vs.length ≤ pkts.length := by
      rcases hres with ⟨_, h⟩ | ⟨_, h⟩
      · omega
      · exact h
    have hlen : st.calls.length = vs.length := by
      rw [hcalls, List.length_zip, starts_length]; omega
    refine ⟨st, ?_, by omega, ?_⟩
    · rcases hres with ⟨h, _⟩ | ⟨h, _⟩
      · exact Or.inl h
      · exact Or.inr h
    · rw [hlen, hcalls]
      exact map_fst_zip_take _ _
  · intro hsink
    obtain ⟨st1, vs, hr, hvs, hcalls, hal⟩ :=
      reach_wf W pkts.flatten.length hsink pkts [] rest [] (a.take pkts.length)
        (a.drop pkts.length) ⟨pkts.flatten ++ rest, a, d, [], [], []⟩ hwf rfl (by simp)
        (by simp) (by simp [ha])
    simp only [List.length_nil, List.nil_append] at hr hcalls hal
    have hw := walk_reach W pkts.flatten.length 0 pkts.length 0 0 _ _ _ hr
    simp only [Nat.add_zero, Nat.zero_add, walk] at hw
    have hnr : 1 ≤ pkts.flatten.length := by
      cases pkts with
      | nil => exact absurd rfl hne
      | cons p ps =>
        have hp : 20 ≤ p.length := by
          rcases hwf p (List.mem_cons_self _ _) with ⟨_, _, h20, _, _⟩ | ⟨_, hl, _, _⟩
          · exact h20
          · rw [← hl]; simp [ipv6HeaderLen]
        rw [List.flatten_cons, List.length_append]
        omega
    have hnx : 1 ≤ pkts.length := by
      cases pkts with
      | nil => exact absurd rfl hne
      | cons p ps => simp
    have hcond : ¬ (pkts.flatten.length < 1 ∨ pkts.length < 1) := by omega
    have hcap : pkts.flatten.length ≤ (pkts.flatten ++ rest).length := by
      rw [List.length_append]; omega
    have hal2 : pkts.length ≤ st1.a.length := by rw [hal]; exact ha
    refine ⟨st1, st1.b.take pkts.flatten.length, st1.a.take pkts.length, hr, ?_, ?_⟩
    · simp only [WriteToBatch, hcond, hcap, hw, hal2, if_true, if_false]
    · rw [hcalls]
      exact List.map_fst_zip _ _ (by rw [starts_length, hvs])

/-- C14 (amended) at a batch of three packets of the examples with a sink that
accepts every write. -/
theorem C14_walk_in_range_witness :
    (∃ st,
      ((∃ buf addrs, WriteToBatch exWorld exDev ([exSyn4, exDns4, exAck4].flatten ++ [1, 2, 3])
            [exAddr, exAddr, exAddr, exAddr] [exSyn4, exDns4, exAck4].flatten.length
            [exSyn4, exDns4, exAck4].length
            = BatchResult.sendEx buf addrs st) ∨
        WriteToBatch exWorld exDev ([exSyn4, exDns4, exAck4].flatten ++ [1, 2, 3])
            [exAddr, exAddr, exAddr, exAddr] [exSyn4, exDns4, exAck4].flatten.length
            [exSyn4, exDns4, exAck4].length
            = BatchResult.returned
                (if exWorld.closed then none else some WalkError.writeInWriteTo) st) ∧
      st.calls.length ≤ [exSyn4, exDns4, exAck4].length ∧
      st.calls.map Prod.fst = (starts 0 [exSyn4, exDns4, exAck4]).take st.calls.length) ∧
    (∃ st buf addrs,
        reach exWorld [exSyn4, exDns4, exAck4].flatten.length [exSyn4, exDns4, exAck4].length
            0 0 ⟨[exSyn4, exDns4, exAck4].flatten ++ [1, 2, 3],
              [exAddr, exAddr, exAddr, exAddr], exDev, [], [], []⟩
          = some ([exSyn4, exDns4, exAck4].flatten.length, st) ∧
        WriteToBatch exWorld exDev ([exSyn4, exDns4, exAck4].flatten ++ [1, 2, 3])
            [exAddr, exAddr, exAddr, exAddr] [exSyn4, exDns4, exAck4].flatten.length
            [exSyn4, exDns4, exAck4].length
          = BatchResult.sendEx buf addrs st ∧
        st.calls.map Prod.fst = starts 0 [exSyn4, exDns4, exAck4]) :=
  have h := C14_walk_in_range exWorld exDev [exSyn4, exDns4, exAck4] [1, 2, 3]
    [exAddr, exAddr, exAddr, exAddr] (by decide) (by decide) (by decide)
  ⟨h.1, h.2 (fun _ _ => rfl)⟩

/-! ## C13: `Write` after `Close` -/

theorem Settled_NewDevice : Settled NewDevice := by
  intro h
  cases h

theorem Settled_Close (s : Life) (shutdownOk closeOk : Bool) (h : Settled s) :
    Settled (Close s shutdownOk closeOk).1 := by
  unfold Close
  split
  · exact h
  · intro _
    dsimp only
    split
    · exact ⟨rfl, rfl⟩
    · split <;> exact ⟨rfl, rfl⟩

theorem Settled_Write (s s1 : Life) (br : Branch) (res : List Byte → Nat × Option WriteErr)
    (b : List Byte) (n : Nat) (err : Option WriteErr) (h : Settled s)
    (hw : Write s br res b = some (s1, n, err)) : Settled s1 := by
  cases br with
  | active =>
    simp only [Write] at hw
    split at hw
    · simp only [Option.some.injEq, Prod.mk.injEq] at hw
      rw [← hw.1]; exact h
    · cases hw
  | event =>
    simp only [Write] at hw
    split at hw
    · cases hw
    · split at hw
      · simp only [Option.some.injEq, Prod.mk.injEq] at hw
        rw [← hw.1]; exact h
      · split at hw <;>
        · simp only [Option.some.injEq, Prod.mk.injEq] at hw
          rw [← hw.1]; exact h

theorem Close_closes (s : Life) (shutdownOk closeOk : Bool) (h : Settled s) :
    (Close s shutdownOk closeOk).1.activeClosed = true ∧
      (Close s shutdownOk closeOk).1.rClosed = true ∧
      (Close s shutdownOk closeOk).1.wClosed = true := by
  have hs := Settled_Close s shutdownOk closeOk h
  have ha : (Close s shutdownOk closeOk).1.activeClosed = true := by
    unfold Close
    split
    · next h1 => exact h1
    · dsimp only
      split
      · rfl
      · split <;> rfl
  exact ⟨ha, hs ha⟩

/-- C13: in a state in which no `Close` is half-way, after `Close` has run,
`Write(b)` returns `(0, io.EOF)` whichever ready branch its `select` takes:
the branch `<-d.active` is ready and returns it at once; the branch
`d.event <- struct{}{}`, ready while the channel has room, leads to a write on
the closed pipe whose error is turned into `(0, io.EOF)`. -/
theorem C13_write_after_close (s0 : Life) (shutdownOk closeOk : Bool)
    (res : List Byte → Nat × Option WriteErr) (b : List Byte) (h : Settled s0) :
    Write (Close s0 shutdownOk closeOk).1 Branch.active res b
        = some ((Close s0 shutdownOk closeOk).1, 0, some WriteErr.EOF) ∧
    ((Close s0 shutdownOk closeOk).1.eventFull = false →
      Write (Close s0 shutdownOk closeOk).1 Branch.event res b
        = some ({ (Close s0 shutdownOk closeOk).1 with eventFull := true }, 0,
            some WriteErr.EOF)) ∧
    (∀ br s1 n err, Write (Close s0 shutdownOk closeOk).1 br res b = some (s1, n, err) →
      n = 0 ∧ err = some WriteErr.EOF) := by
  obtain ⟨ha, hr, hw⟩ := Close_closes s0 shutdownOk closeOk h
  generalize (Close s0 shutdownOk closeOk).1 = s at ha hr hw
  have hact : Write s Branch.active res b = some (s, 0, some WriteErr.EOF) := by
    simp [Write, ha]
  have hev : s.eventFull = false →
      Write s Branch.event res b = some ({ s with eventFull := true }, 0, some WriteErr.EOF) := by
    intro he
    simp [Write, pipeWrite, he, ha, hr]
  refine ⟨hact, hev, ?_⟩
  intro br s1 n err hres
  cases br with
  | active =>
    rw [hact] at hres
    simp only [Option.some.injEq, Prod.mk.injEq] at hres
    exact ⟨hres.2.1.symm, hres.2.2.symm⟩
  | event =>
    cases he : s.eventFull with
    | true => simp [Write, he] at hres
    | false =>
      rw [hev he] at hres
      simp only [Option.some.injEq, Prod.mk.injEq] at hres
      exact ⟨hres.2.1.symm, hres.2.2.symm⟩

/-- C13 at a freshly made device that is closed once, the handle calls
succeeding, and a four-byte write. -/
theorem C13_write_after_close_witness :
    Write (Close NewDevice true true).1 Branch.active exReader [1, 2, 3, 4]
        = some ((Close NewDevice true true).1, 0, some WriteErr.EOF) ∧
    Write (Close NewDevice true true).1 Branch.event exReader [1, 2, 3, 4]
        = some ({ (Close NewDevice true true).1 with eventFull := true }, 0,
            some WriteErr.EOF) ∧
    (∀ br s1 n err, Write (Close NewDevice true true).1 br exReader [1, 2, 3, 4]
        = some (s1, n, err) → n = 0 ∧ err = some WriteErr.EOF) :=
  have h := C13_write_after_close NewDevice true true exReader [1, 2, 3, 4] (by decide)
  ⟨h.1, h.2.1 (by decide), h.2.2⟩

end windivert
